import Mathlib

/-!
Verification of the RNA-seq alignment pipeline scripts.

Shallow embedding of the four Python source files
(`process_fastq_files.py`, `align_with_hisat2.py`,
`trim_and_map_transcripts.py`, `rna_seq_pipeline.py`).

Modelling conventions:
* A filesystem path is its list of components (`FsPath`); `os.path.join(d, f)`
  is `d ++ [f]`, `os.path.dirname d` is `d.dropLast`, and rendering a path to
  the string handed to an external tool is `String.intercalate "/"`.
* The filesystem state `FS` records which paths exist as files and as
  directories, in creation order.  `os.listdir` lists the base names of the
  entries (files and directories) whose parent is the given directory, in
  that stored order (Python's listing order is unspecified, so any fixed
  order is a faithful choice).
* External processes (`subprocess.run(..., check=True)`) are modelled by an
  oracle `runOk : List String → Bool` giving the exit status of an argument
  vector.  A successful invocation creates the output files the command was
  directed to write; a failing one raises `CalledProcessError` (which in
  Python is *not* an `OSError`, so none of the scripts' `except OSError`
  handlers catch it) and is modelled as writing nothing.
* Python string operations are embedded through the underlying character
  lists (`String.data`), which is where Lean's list lemmas live.
-/

namespace RnaSeq

/-- A filesystem path, as its list of `/`-separated components.
`["", "path", "to", "fastq"]` renders as `"/path/to/fastq"`. -/
abbrev FsPath := List String

/-- Render a path to the string handed to an external command. -/
def renderPath (p : FsPath) : String := String.intercalate "/" p

/-- `os.path.dirname`: drop the last component. -/
def pathDirname (p : FsPath) : FsPath := p.dropLast

/-- Python `s.endswith(t)`. -/
def strEndsWith (s t : String) : Bool := decide (t.data <:+ s.data)

/-- Python `s.startswith(t)`. -/
def strStartsWith (s t : String) : Bool := decide (t.data <+: s.data)

/-- Python `t in s` (substring containment). -/
def strContains (s t : String) : Bool := decide (t.data <:+: s.data)

/-- Python `s[:-n]` for `n ≤ len s`: drop the last `n` characters. -/
def strDropRight (s : String) (n : Nat) : String :=
  String.mk (s.data.take (s.data.length - n))

/-- `os.path.splitext(p)[0]` on a bare file name (no separators): split at
the last dot, unless there is no dot or every character before the last dot
is itself a dot (Python's leading-dot rule). -/
def splitextRootList (cs : List Char) : List Char :=
  let ext := cs.reverse.takeWhile (fun c => decide (c ≠ '.'))
  if ext.length = cs.length then cs
  else if (cs.take (cs.length - ext.length - 1)).all (fun c => decide (c = '.')) then cs
  else cs.take (cs.length - ext.length - 1)

/-- `os.path.splitext(s)[0]` as a string operation. -/
def splitextRoot (s : String) : String := String.mk (splitextRootList s.data)

/-- Filesystem state: the files and the directories that exist, in creation
order.  (Ancestor directories implicitly created by `os.makedirs` are not
tracked individually; only the target directory matters to the scripts.) -/
structure FS where
  files : List FsPath
  dirs : List FsPath
deriving Repr, DecidableEq

/-- `os.path.isdir`. -/
def FS.isdir (fs : FS) (p : FsPath) : Bool := decide (p ∈ fs.dirs)

/-- `os.path.isfile`. -/
def FS.isfile (fs : FS) (p : FsPath) : Bool := decide (p ∈ fs.files)

/-- `os.makedirs(p, exist_ok=True)`: no-op if the directory exists. -/
def FS.makedirs (fs : FS) (p : FsPath) : FS :=
  if p ∈ fs.dirs then fs else ⟨fs.files, fs.dirs ++ [p]⟩

/-- Creating (or truncating) a file at `p`: after it, the file exists; an
existing file is overwritten in place, so the listing is unchanged. -/
def FS.touch (fs : FS) (p : FsPath) : FS :=
  if p ∈ fs.files then fs else ⟨fs.files ++ [p], fs.dirs⟩

/-- Create every file in `ps`, left to right. -/
def FS.touchAll (fs : FS) (ps : List FsPath) : FS := ps.foldl FS.touch fs

/-- `os.listdir d`: base names of the entries (files and directories) whose
parent directory is `d`. -/
def FS.listdir (fs : FS) (d : FsPath) : List String :=
  ((fs.files ++ fs.dirs).filter (fun p => decide (p ≠ [] ∧ p.dropLast = d))).map
    (fun p => p.getLastD "")

/-- The Python exceptions the scripts raise.  `CalledProcessError` (from
`subprocess.run(..., check=True)`) is not a subclass of `OSError`;
`FileNotFoundError` is. -/
inductive PyErr where
  | fileNotFoundError (msg : String)
  | osError (msg : String)
  | calledProcessError (argv : List String)
deriving Repr, DecidableEq

/-- Result of one per-file loop: the filesystem afterwards, the argument
vectors handed to `subprocess.run` in order, and whether the loop finished
without a failing invocation. -/
structure LoopResult where
  fs : FS
  invocations : List (List String)
  ok : Bool
deriving Repr

/-- Result of one stage function: the Python return value (output-directory
path) or the raised exception, the filesystem afterwards, and the external
invocations performed, in order. -/
structure StageResult where
  ret : Except PyErr FsPath
  fs : FS
  invocations : List (List String)
deriving Repr

/-- The shared per-file loop of every stage:
`for file in listing: if pred(file): subprocess.run(cmd(file), check=True)`.
A successful invocation creates the output files `outs file`; a failing one
halts the loop at once (`check=True` raises, and the surrounding
`except OSError` does not catch `CalledProcessError`). -/
def stageLoop (runOk : List String → Bool) (pred : String → Bool)
    (cmd : String → List String) (outs : String → List FsPath)
    (fs : FS) : List String → LoopResult
  | [] => ⟨fs, [], true⟩
  | f :: rest =>
    if pred f then
      if runOk (cmd f) then
        let r := stageLoop runOk pred cmd outs (fs.touchAll (outs f)) rest
        ⟨r.fs, cmd f :: r.invocations, r.ok⟩
      else ⟨fs, [cmd f], false⟩
    else stageLoop runOk pred cmd outs fs rest

/-- `output_dir = os.path.join(os.path.dirname(input_dir), label)` followed by
`os.makedirs(output_dir, exist_ok=True)` — the output-directory resolution
shared by all four stages. -/
def resolveOutputDir (fs : FS) (input_dir : FsPath) (label : String) : FsPath × FS :=
  let output_dir := pathDirname input_dir ++ [label]
  (output_dir, fs.makedirs output_dir)

/-- The `cutadapt` argument vector built by `process_fastq_files` for a
forward-read file `file` ending in `_1.fastq`
(`file_name = file[:-len('_1.fastq')]`). -/
def cutadaptCommand (fastq_dir output_dir : FsPath) (file : String) : List String :=
  let file_name := strDropRight file 8
  ["cutadapt",
   "-a", "AGATCGGAAGAGCACACGTCTGAACTCCAGTCA",
   "-A", "AGATCGGAAGAGCGTCGTGTAGGGAAAGAGTGT",
   "-o", renderPath (output_dir ++ ["trimmed." ++ file_name ++ "_1.fastq"]),
   "-p", renderPath (output_dir ++ ["trimmed." ++ file_name ++ "_2.fastq.gz"]),
   renderPath (fastq_dir ++ [file]),
   renderPath (fastq_dir ++ [file_name ++ "_2.fastq"])]

/-- The output files a successful `cutadapt` invocation writes (the `-o` and
`-p` targets). -/
def cutadaptOutputs (output_dir : FsPath) (file : String) : List FsPath :=
  let file_name := strDropRight file 8
  [output_dir ++ ["trimmed." ++ file_name ++ "_1.fastq"],
   output_dir ++ ["trimmed." ++ file_name ++ "_2.fastq.gz"]]

/-- `process_fastq_files(fastq_dir)` from `process_fastq_files.py`. -/
def process_fastq_files (runOk : List String → Bool) (fs : FS)
    (fastq_dir : FsPath) : StageResult :=
  if fs.isdir fastq_dir = true then
    let od := resolveOutputDir fs fastq_dir "FASTQ_output"
    let r := stageLoop runOk (fun f => strEndsWith f "_1.fastq")
      (cutadaptCommand fastq_dir od.1) (cutadaptOutputs od.1)
      od.2 (od.2.listdir fastq_dir)
    if r.ok = true then ⟨.ok od.1, r.fs, r.invocations⟩
    else ⟨.error (.calledProcessError (r.invocations.getLastD [])), r.fs, r.invocations⟩
  else
    ⟨.error (.fileNotFoundError
      ("The directory \x27" ++ renderPath fastq_dir ++ "\x27 does not exist.")), fs, []⟩

/-- The `hisat2` argument vector built by `align_with_hisat2` for a file
whose name contains `trimmed` (`file_name = os.path.splitext(file)[0]`). -/
def hisat2Command (input_dir output_dir genome_index : FsPath) (file : String) :
    List String :=
  ["hisat2", "-q", "-p", "2", "--dta-cufflinks", "-x", renderPath genome_index,
   "-U", renderPath (input_dir ++ [file]),
   "-S", renderPath (output_dir ++ ["aligned." ++ splitextRoot file ++ ".sam"])]

/-- The output file a successful `hisat2` invocation writes (the `-S` target). -/
def hisat2Outputs (output_dir : FsPath) (file : String) : List FsPath :=
  [output_dir ++ ["aligned." ++ splitextRoot file ++ ".sam"]]

/-- `align_with_hisat2(input_dir, genome_index)` from `align_with_hisat2.py`.
Note the source order: the output directory is created *before* the genome
index is checked. -/
def align_with_hisat2 (runOk : List String → Bool) (fs : FS)
    (input_dir genome_index : FsPath) : StageResult :=
  if fs.isdir input_dir = true then
    let od := resolveOutputDir fs input_dir "hisat2_output"
    if od.2.isfile genome_index = true then
      let r := stageLoop runOk (fun f => strContains f "trimmed")
        (hisat2Command input_dir od.1 genome_index) (hisat2Outputs od.1)
        od.2 (od.2.listdir input_dir)
      if r.ok = true then ⟨.ok od.1, r.fs, r.invocations⟩
      else ⟨.error (.calledProcessError (r.invocations.getLastD [])), r.fs, r.invocations⟩
    else
      ⟨.error (.fileNotFoundError
        ("The genome index file \x27" ++ renderPath genome_index ++ "\x27 does not exist.")),
       od.2, []⟩
  else
    ⟨.error (.fileNotFoundError
      ("The directory \x27" ++ renderPath input_dir ++ "\x27 does not exist.")), fs, []⟩

/-- The `awk` filter of step 1 of `trim_and_map_transcripts` (its stdout is
redirected into `Dcx.gtf`). -/
def awkCommand (gtf_file : FsPath) : List String :=
  ["awk", "$8 == \x22ENSMUSG00000031285\x22", renderPath gtf_file]

/-- The `stringtie` argument vector shared by steps 2 and 4 of
`trim_and_map_transcripts`; `gtfArg` is `Dcx.gtf` in step 2 and
`ref_merged_transcripts.gtf` in step 4
(`output_prefix = os.path.splitext(bam_file)[0]`). -/
def stringtieCoveredCommand (input_dir output_dir gtfArg : FsPath)
    (bam_file : String) : List String :=
  let stem := splitextRoot bam_file
  ["stringtie", renderPath (input_dir ++ [bam_file]), "-G", renderPath gtfArg,
   "-C", renderPath (output_dir ++ ["covered_transcripts_" ++ stem ++ ".gtf"]),
   "-l", stem]

/-- The output file a successful covered-transcripts `stringtie` invocation
writes (the `-C` target). -/
def stringtieCoveredOutputs (output_dir : FsPath) (bam_file : String) : List FsPath :=
  [output_dir ++ ["covered_transcripts_" ++ splitextRoot bam_file ++ ".gtf"]]

/-- The `stringtie --merge` argument vector of step 3 of
`trim_and_map_transcripts`. -/
def mergeCommand (output_dir : FsPath) : List String :=
  ["stringtie", "--merge", "-G", renderPath (output_dir ++ ["Dcx.gtf"]),
   "-o", renderPath (output_dir ++ ["ref_merged_transcripts.gtf"]),
   renderPath (output_dir ++ ["assembly_gtf_list.txt"])]

/-- Filesystem state of `trim_and_map_transcripts` after the output
directory has been created and step 1 has opened `Dcx.gtf` for writing
(`open(dcx_gtf, 'w')` creates the file before `awk` runs; the file's textual
content is not modelled — only which paths exist matters to the scripts). -/
def tmAfterDcx (fs : FS) (input_dir : FsPath) : FS :=
  (resolveOutputDir fs input_dir "mapped_transcripts").2.touch
    ((pathDirname input_dir ++ ["mapped_transcripts"]) ++ ["Dcx.gtf"])

/-- Step 2 of `trim_and_map_transcripts`: one `stringtie` run per `.bam`
file of the input listing, against `Dcx.gtf`. -/
def tmStep2Loop (runOk : List String → Bool) (fs : FS) (input_dir : FsPath) :
    LoopResult :=
  stageLoop runOk (fun f => strEndsWith f ".bam")
    (stringtieCoveredCommand input_dir (pathDirname input_dir ++ ["mapped_transcripts"])
      ((pathDirname input_dir ++ ["mapped_transcripts"]) ++ ["Dcx.gtf"]))
    (stringtieCoveredOutputs (pathDirname input_dir ++ ["mapped_transcripts"]))
    (tmAfterDcx fs input_dir) ((tmAfterDcx fs input_dir).listdir input_dir)

/-- Filesystem state after step 3 has opened the manifest
`assembly_gtf_list.txt` for writing (before `stringtie --merge` runs). -/
def tmManifestFs (runOk : List String → Bool) (fs : FS) (input_dir : FsPath) : FS :=
  (tmStep2Loop runOk fs input_dir).fs.touch
    ((pathDirname input_dir ++ ["mapped_transcripts"]) ++ ["assembly_gtf_list.txt"])

/-- Filesystem state after a successful `stringtie --merge` has written
`ref_merged_transcripts.gtf`. -/
def tmMergedFs (runOk : List String → Bool) (fs : FS) (input_dir : FsPath) : FS :=
  (tmManifestFs runOk fs input_dir).touch
    ((pathDirname input_dir ++ ["mapped_transcripts"]) ++ ["ref_merged_transcripts.gtf"])

/-- Step 4 of `trim_and_map_transcripts`: one `stringtie` run per
`sorted.*.bam` file of a fresh input listing, against the merged annotation. -/
def tmStep4Loop (runOk : List String → Bool) (fs : FS) (input_dir : FsPath) :
    LoopResult :=
  stageLoop runOk (fun f => strStartsWith f "sorted." && strEndsWith f ".bam")
    (stringtieCoveredCommand input_dir (pathDirname input_dir ++ ["mapped_transcripts"])
      ((pathDirname input_dir ++ ["mapped_transcripts"]) ++ ["ref_merged_transcripts.gtf"]))
    (stringtieCoveredOutputs (pathDirname input_dir ++ ["mapped_transcripts"]))
    (tmMergedFs runOk fs input_dir) ((tmMergedFs runOk fs input_dir).listdir input_dir)

/-- `trim_and_map_transcripts(input_dir, gtf_file)` from
`trim_and_map_transcripts.py`.  Both precondition checks precede the
output-directory creation; steps 1-4 are the named pieces above. -/
def trim_and_map_transcripts (runOk : List String → Bool) (fs : FS)
    (input_dir gtf_file : FsPath) : StageResult :=
  if fs.isdir input_dir = true then
    if fs.isfile gtf_file = true then
      let output_dir := pathDirname input_dir ++ ["mapped_transcripts"]
      let awkc := awkCommand gtf_file
      if runOk awkc = true then
        let r2 := tmStep2Loop runOk fs input_dir
        if r2.ok = true then
          let mergec := mergeCommand output_dir
          if runOk mergec = true then
            let r4 := tmStep4Loop runOk fs input_dir
            if r4.ok = true then
              ⟨.ok output_dir, r4.fs, awkc :: r2.invocations ++ mergec :: r4.invocations⟩
            else
              ⟨.error (.calledProcessError (r4.invocations.getLastD [])), r4.fs,
               awkc :: r2.invocations ++ mergec :: r4.invocations⟩
          else
            ⟨.error (.calledProcessError mergec), tmManifestFs runOk fs input_dir,
             awkc :: r2.invocations ++ [mergec]⟩
        else
          ⟨.error (.calledProcessError (r2.invocations.getLastD [])), r2.fs,
           awkc :: r2.invocations⟩
      else ⟨.error (.calledProcessError awkc), tmAfterDcx fs input_dir, [awkc]⟩
    else
      ⟨.error (.fileNotFoundError
        ("The file \x27" ++ renderPath gtf_file ++ "\x27 does not exist.")), fs, []⟩
  else
    ⟨.error (.fileNotFoundError
      ("The directory \x27" ++ renderPath input_dir ++ "\x27 does not exist.")), fs, []⟩

/-- The `samtools view -bS` argument vector of the driver's SAM-to-BAM
conversion (`output_bam = os.path.splitext(sam_file)[0] + ".bam"`). -/
def samtoolsCommand (aligned_dir bam_dir : FsPath) (sam_file : String) : List String :=
  ["samtools", "view", "-bS", renderPath (aligned_dir ++ [sam_file]),
   "-o", renderPath (bam_dir ++ [splitextRoot sam_file ++ ".bam"])]

/-- The output file a successful `samtools view` invocation writes. -/
def samtoolsOutputs (bam_dir : FsPath) (sam_file : String) : List FsPath :=
  [bam_dir ++ [splitextRoot sam_file ++ ".bam"]]

/-- The hardcoded FASTQ input directory of `rna_seq_pipeline.main`. -/
def fastq_files_dir : FsPath := ["", "path", "to", "fastq", "files"]

/-- The `except (FileNotFoundError, OSError)` handler of `main`:
`FileNotFoundError` and `OSError` are caught and re-raised as
`OSError(f"Error during execution: {e}")`; `CalledProcessError` is not an
`OSError`, so it propagates unchanged. -/
def mainHandler (e : PyErr) : PyErr :=
  match e with
  | .fileNotFoundError m => .osError ("Error during execution: " ++ m)
  | .osError m => .osError ("Error during execution: " ++ m)
  | .calledProcessError a => .calledProcessError a

/-- Result of `main`: the Python return value or the raised exception, plus
the filesystem and the external invocations performed.  `main` has no
`return` statement, so on success its value is `None`, embedded as
`.ok none : Except PyErr (Option FsPath)`. -/
structure MainResult where
  ret : Except PyErr (Option FsPath)
  fs : FS
  invocations : List (List String)
deriving Repr

/-- Sequence one stage call inside `main`'s `try` block: on an exception,
apply `main`'s handler and stop; on success, continue with the returned
output directory. `acc` accumulates the invocations already performed. -/
def stageStep (acc : List (List String)) (r : StageResult)
    (k : List (List String) → FS → FsPath → MainResult) : MainResult :=
  match r.ret with
  | .error e => ⟨.error (mainHandler e), r.fs, acc ++ r.invocations⟩
  | .ok p => k (acc ++ r.invocations) r.fs p

/-- The driver's SAM-to-BAM conversion loop: `bam_output_dir` is resolved as
the `bam` sibling of the aligned-reads directory, and one `samtools view`
run is performed per `.sam` file of its listing. -/
def bamLoop (runOk : List String → Bool) (fs : FS) (aligned_dir : FsPath) :
    LoopResult :=
  stageLoop runOk (fun f => strEndsWith f ".sam")
    (samtoolsCommand aligned_dir ((resolveOutputDir fs aligned_dir "bam").1))
    (samtoolsOutputs ((resolveOutputDir fs aligned_dir "bam").1))
    ((resolveOutputDir fs aligned_dir "bam").2)
    (((resolveOutputDir fs aligned_dir "bam").2).listdir aligned_dir)

/-- `main(gtf_file, genome_index)` from `rna_seq_pipeline.py`: trim, align,
convert each `.sam` to `.bam` with `samtools`, then assemble transcripts.
A `samtools` failure raises `CalledProcessError`, which the `except` clause
does not catch, so it propagates unchanged. -/
def main (runOk : List String → Bool) (fs : FS)
    (gtf_file genome_index : FsPath) : MainResult :=
  stageStep [] (process_fastq_files runOk fs fastq_files_dir)
    (fun acc1 fs1 trimmed_reads_dir =>
      stageStep acc1 (align_with_hisat2 runOk fs1 trimmed_reads_dir genome_index)
        (fun acc2 fs2 aligned_reads_dir =>
          let od := resolveOutputDir fs2 aligned_reads_dir "bam"
          let rb := bamLoop runOk fs2 aligned_reads_dir
          if rb.ok = true then
            stageStep (acc2 ++ rb.invocations)
              (trim_and_map_transcripts runOk rb.fs od.1 gtf_file)
              (fun acc3 fs3 _ => ⟨.ok none, fs3, acc3⟩)
          else
            ⟨.error (.calledProcessError (rb.invocations.getLastD [])), rb.fs,
             acc2 ++ rb.invocations⟩))

/-! ## Basic lemmas about the filesystem model -/

theorem touch_dirs (fs : FS) (p : FsPath) : (fs.touch p).dirs = fs.dirs := by
  unfold FS.touch; split <;> rfl

theorem makedirs_files (fs : FS) (p : FsPath) : (fs.makedirs p).files = fs.files := by
  unfold FS.makedirs; split <;> rfl

theorem touchAll_dirs (ps : List FsPath) (fs : FS) : (fs.touchAll ps).dirs = fs.dirs := by
  induction ps generalizing fs with
  | nil => rfl
  | cons p ps ih => simp only [FS.touchAll, List.foldl_cons] at *; rw [ih, touch_dirs]

theorem mem_touch_files {q p : FsPath} {fs : FS} :
    q ∈ (fs.touch p).files ↔ q ∈ fs.files ∨ q = p := by
  unfold FS.touch
  split
  · rename_i hp
    constructor
    · exact fun h => Or.inl h
    · rintro (h | rfl)
      · exact h
      · exact hp
  · simp

theorem mem_touchAll_files {q : FsPath} {ps : List FsPath} {fs : FS} :
    q ∈ (fs.touchAll ps).files ↔ q ∈ fs.files ∨ q ∈ ps := by
  induction ps generalizing fs with
  | nil => simp [FS.touchAll]
  | cons p ps ih =>
    simp only [FS.touchAll, List.foldl_cons] at *
    rw [ih, mem_touch_files]
    simp only [List.mem_cons]
    tauto

theorem mem_makedirs_dirs {q p : FsPath} {fs : FS} :
    q ∈ (fs.makedirs p).dirs ↔ q ∈ fs.dirs ∨ q = p := by
  unfold FS.makedirs
  split
  · rename_i hp
    constructor
    · exact fun h => Or.inl h
    · rintro (h | rfl)
      · exact h
      · exact hp
  · simp

theorem isfile_makedirs (fs : FS) (p q : FsPath) :
    (fs.makedirs p).isfile q = fs.isfile q := by
  simp [FS.isfile, makedirs_files]

theorem isdir_makedirs_self (fs : FS) (p : FsPath) :
    (fs.makedirs p).isdir p = true := by
  simp [FS.isdir, mem_makedirs_dirs]

theorem isfile_touch_mono {q p : FsPath} {fs : FS} (h : fs.isfile q = true) :
    (fs.touch p).isfile q = true := by
  simp only [FS.isfile, decide_eq_true_eq] at *
  exact mem_touch_files.mpr (Or.inl h)

theorem isfile_touchAll_mono {q : FsPath} {ps : List FsPath} {fs : FS}
    (h : fs.isfile q = true) : (fs.touchAll ps).isfile q = true := by
  simp only [FS.isfile, decide_eq_true_eq] at *
  exact mem_touchAll_files.mpr (Or.inl h)

theorem dropLast_snoc {α : Type} (l : List α) (a : α) : (l ++ [a]).dropLast = l := by
  simp

theorem getLastD_snoc {α : Type} (l : List α) (a b : α) : (l ++ [a]).getLastD b = a := by
  simp

theorem snoc_ne_of_last_ne {a b : String} (q q' : FsPath) (h : a ≠ b) :
    q ++ [a] ≠ q' ++ [b] := by
  intro he
  have := congrArg (fun l => l.getLastD a) he
  simp at this
  exact h this

theorem dropLast_ne_self {d : FsPath} (h : d ≠ []) : d.dropLast ≠ d := by
  intro he
  have hlen := congrArg List.length he
  rw [List.length_dropLast] at hlen
  have : d.length ≠ 0 := fun h0 => h (List.eq_nil_of_length_eq_zero h0)
  omega

/-! ## Lemmas about `FS.listdir` -/

theorem mem_listdir {x : String} {fs : FS} {d : FsPath} :
    x ∈ fs.listdir d ↔
      ∃ p, (p ∈ fs.files ∨ p ∈ fs.dirs) ∧ p ≠ [] ∧ p.dropLast = d ∧ p.getLastD "" = x := by
  simp only [FS.listdir, List.mem_map, List.mem_filter, List.mem_append,
    decide_eq_true_eq]
  constructor
  · rintro ⟨p, ⟨hmem, hne, hdl⟩, hlast⟩
    exact ⟨p, hmem, hne, hdl, hlast⟩
  · rintro ⟨p, hmem, hne, hdl, hlast⟩
    exact ⟨p, ⟨hmem, hne, hdl⟩, hlast⟩

theorem listdir_touch_of_ne {p d : FsPath} (fs : FS) (h : p.dropLast ≠ d) :
    (fs.touch p).listdir d = fs.listdir d := by
  unfold FS.touch
  split
  · rfl
  · show FS.listdir ⟨fs.files ++ [p], fs.dirs⟩ d = _
    unfold FS.listdir
    simp only [List.append_assoc, List.filter_append, List.map_append]
    have hp : (List.filter (fun q => decide (q ≠ [] ∧ q.dropLast = d)) [p]) = [] := by
      simp [h]
    rw [hp]
    simp

theorem listdir_makedirs_of_ne {p d : FsPath} (fs : FS) (h : p.dropLast ≠ d) :
    (fs.makedirs p).listdir d = fs.listdir d := by
  unfold FS.makedirs
  split
  · rfl
  · show FS.listdir ⟨fs.files, fs.dirs ++ [p]⟩ d = _
    unfold FS.listdir
    simp only [← List.append_assoc, List.filter_append, List.map_append]
    have hp : (List.filter (fun q => decide (q ≠ [] ∧ q.dropLast = d)) [p]) = [] := by
      simp [h]
    rw [hp]
    simp

theorem listdir_makedirs_extra (fs : FS) (p d : FsPath) :
    ∃ e, (fs.makedirs p).listdir d = fs.listdir d ++ e ∧
      (e = [] ∨ e = [p.getLastD ""]) := by
  unfold FS.makedirs
  split
  · exact ⟨[], by simp⟩
  · refine ⟨((List.filter (fun q => decide (q ≠ [] ∧ q.dropLast = d)) [p]).map
      (fun q => q.getLastD "")), ?_, ?_⟩
    · show FS.listdir ⟨fs.files, fs.dirs ++ [p]⟩ d = _
      unfold FS.listdir
      simp [← List.append_assoc, List.filter_append]
    · by_cases hp : p ≠ [] ∧ p.dropLast = d
      · right; simp [hp]
      · left; simp [List.filter, hp]

theorem listdir_touchAll_of_ne {ps : List FsPath} {d : FsPath} (fs : FS)
    (h : ∀ p ∈ ps, p.dropLast ≠ d) :
    (fs.touchAll ps).listdir d = fs.listdir d := by
  induction ps generalizing fs with
  | nil => rfl
  | cons p ps ih =>
    simp only [FS.touchAll, List.foldl_cons] at *
    rw [ih _ (fun q hq => h q (List.mem_cons_of_mem _ hq)),
      listdir_touch_of_ne fs (h p (List.mem_cons_self _ _))]

/-! ## Lemmas about `stageLoop` -/

theorem stageLoop_dirs (runOk : List String → Bool) (pred : String → Bool)
    (cmd : String → List String) (outs : String → List FsPath)
    (l : List String) (fs : FS) :
    (stageLoop runOk pred cmd outs fs l).fs.dirs = fs.dirs := by
  induction l generalizing fs with
  | nil => rfl
  | cons f rest ih =>
    unfold stageLoop
    by_cases hp : pred f
    · simp only [hp, if_true]
      by_cases hr : runOk (cmd f)
      · simp only [hr, if_true]
        rw [ih, touchAll_dirs]
      · simp [hr]
    · simp only [hp, if_false]
      exact ih fs

theorem stageLoop_files_mono {q : FsPath} (runOk : List String → Bool)
    (pred : String → Bool) (cmd : String → List String) (outs : String → List FsPath)
    (l : List String) (fs : FS) (h : q ∈ fs.files) :
    q ∈ (stageLoop runOk pred cmd outs fs l).fs.files := by
  induction l generalizing fs with
  | nil => exact h
  | cons f rest ih =>
    unfold stageLoop
    by_cases hp : pred f
    · simp only [hp, if_true]
      by_cases hr : runOk (cmd f)
      · simp only [hr, if_true]
        exact ih _ (mem_touchAll_files.mpr (Or.inl h))
      · simp only [hr, if_false]
        exact h
    · simp only [hp, if_false]
      exact ih fs h

theorem mem_stageLoop_files {q : FsPath} (runOk : List String → Bool)
    (pred : String → Bool) (cmd : String → List String) (outs : String → List FsPath)
    (l : List String) (fs : FS)
    (h : q ∈ (stageLoop runOk pred cmd outs fs l).fs.files) :
    q ∈ fs.files ∨ ∃ f ∈ l, pred f = true ∧ q ∈ outs f := by
  induction l generalizing fs with
  | nil => exact Or.inl h
  | cons f rest ih =>
    unfold stageLoop at h
    by_cases hp : pred f
    · simp only [hp, if_true] at h
      by_cases hr : runOk (cmd f)
      · simp only [hr, if_true] at h
        rcases ih _ h with h' | ⟨g, hg, hgp, hgo⟩
        · rcases mem_touchAll_files.mp h' with h'' | h''
          · exact Or.inl h''
          · exact Or.inr ⟨f, List.mem_cons_self _ _, hp, h''⟩
        · exact Or.inr ⟨g, List.mem_cons_of_mem _ hg, hgp, hgo⟩
      · simp only [hr, if_false] at h
        exact Or.inl h
    · simp only [hp, if_false] at h
      rcases ih fs h with h' | ⟨g, hg, hgp, hgo⟩
      · exact Or.inl h'
      · exact Or.inr ⟨g, List.mem_cons_of_mem _ hg, hgp, hgo⟩

theorem stageLoop_listdir_of_ne {d : FsPath} (runOk : List String → Bool)
    (pred : String → Bool) (cmd : String → List String) (outs : String → List FsPath)
    (l : List String) (fs : FS)
    (h : ∀ f, ∀ p ∈ outs f, p.dropLast ≠ d) :
    (stageLoop runOk pred cmd outs fs l).fs.listdir d = fs.listdir d := by
  induction l generalizing fs with
  | nil => rfl
  | cons f rest ih =>
    unfold stageLoop
    by_cases hp : pred f
    · simp only [hp, if_true]
      by_cases hr : runOk (cmd f)
      · simp only [hr, if_true]
        rw [ih, listdir_touchAll_of_ne fs (h f)]
      · simp [hr]
    · simp only [hp, if_false]
      exact ih fs

theorem stageLoop_all_ok (runOk : List String → Bool) (pred : String → Bool)
    (cmd : String → List String) (outs : String → List FsPath)
    (l : List String) (fs : FS)
    (h : ∀ f ∈ l, pred f = true → runOk (cmd f) = true) :
    (stageLoop runOk pred cmd outs fs l).ok = true ∧
    (stageLoop runOk pred cmd outs fs l).invocations = (l.filter pred).map cmd := by
  induction l generalizing fs with
  | nil => exact ⟨rfl, rfl⟩
  | cons f rest ih =>
    unfold stageLoop
    by_cases hp : pred f
    · have hr := h f (List.mem_cons_self _ _) hp
      simp only [hp, hr, if_true]
      have := ih (fs.touchAll (outs f)) (fun g hg => h g (List.mem_cons_of_mem _ hg))
      refine ⟨this.1, ?_⟩
      simp [List.filter_cons, hp, this.2]
    · simp only [hp, if_false]
      have := ih fs (fun g hg => h g (List.mem_cons_of_mem _ hg))
      refine ⟨this.1, ?_⟩
      simp [List.filter_cons, hp, this.2]

theorem stageLoop_no_match (runOk : List String → Bool) (pred : String → Bool)
    (cmd : String → List String) (outs : String → List FsPath)
    (l : List String) (fs : FS) (h : ∀ f ∈ l, pred f = false) :
    stageLoop runOk pred cmd outs fs l = ⟨fs, [], true⟩ := by
  induction l with
  | nil => rfl
  | cons f rest ih =>
    unfold stageLoop
    have hp := h f (List.mem_cons_self _ _)
    simp only [hp, Bool.false_eq_true, if_false]
    exact ih (fun g hg => h g (List.mem_cons_of_mem _ hg))

theorem mem_touchAll_of_mem {p : FsPath} {ps : List FsPath} (fs : FS) (h : p ∈ ps) :
    p ∈ (fs.touchAll ps).files := mem_touchAll_files.mpr (Or.inr h)

/-- Halt-on-failure behaviour of the shared per-file loop: if the invocation
for the `i`-th matched file fails and the earlier ones succeed, the loop
reports failure, has performed exactly the first `i+1` matched invocations in
listing order, and the outputs of the earlier (successful) invocations are
still present (no rollback). -/
theorem stageLoop_halt (runOk : List String → Bool) (pred : String → Bool)
    (cmd : String → List String) (outs : String → List FsPath) :
    ∀ (l : List String) (i : Nat) (fs : FS),
    i < (l.filter pred).length →
    (∀ j, j < i → runOk (cmd ((l.filter pred).getD j "")) = true) →
    runOk (cmd ((l.filter pred).getD i "")) = false →
    (stageLoop runOk pred cmd outs fs l).ok = false ∧
    (stageLoop runOk pred cmd outs fs l).invocations =
      ((l.filter pred).take (i+1)).map cmd ∧
    (∀ j, j < i → ∀ p ∈ outs ((l.filter pred).getD j ""),
      p ∈ (stageLoop runOk pred cmd outs fs l).fs.files) := by
  intro l
  induction l with
  | nil => intro i fs hi _ _; simp at hi
  | cons f rest ih =>
    intro i fs hi hbef hfail
    by_cases hp : pred f
    · rw [List.filter_cons_of_pos hp] at hi hbef hfail ⊢
      match i with
      | 0 =>
        have hf : runOk (cmd f) = false := hfail
        unfold stageLoop
        rw [if_pos hp, if_neg (by rw [hf]; exact Bool.false_ne_true)]
        refine ⟨rfl, by simp, ?_⟩
        intro j hj
        omega
      | i' + 1 =>
        have hf0 : runOk (cmd f) = true := hbef 0 (Nat.succ_pos _)
        unfold stageLoop
        simp only [hp, if_true, hf0]
        simp only [List.getD_cons_succ] at hfail
        have hi' : i' < (rest.filter pred).length := by
          rw [List.length_cons] at hi; omega
        have hbef' : ∀ j, j < i' →
            runOk (cmd ((rest.filter pred).getD j "")) = true := by
          intro j hj
          have := hbef (j + 1) (by omega)
          simpa using this
        obtain ⟨hok, hinv, hout⟩ := ih i' (fs.touchAll (outs f)) hi' hbef' hfail
        refine ⟨hok, ?_, ?_⟩
        · simp only [List.take_succ_cons, List.map_cons, hinv]
        · intro j hj
          match j with
          | 0 =>
            intro p hpmem
            exact stageLoop_files_mono _ _ _ _ _ _
              (mem_touchAll_of_mem fs hpmem)
          | j' + 1 =>
            simp only [List.getD_cons_succ]
            exact hout j' (by omega)
    · rw [List.filter_cons_of_neg hp] at hi hbef hfail ⊢
      unfold stageLoop
      simp only [hp, Bool.false_eq_true, if_false]
      exact ih i fs hi hbef hfail

/-! ## String lemmas -/

theorem strEndsWith_iff {s t : String} : strEndsWith s t = true ↔ t.data <:+ s.data := by
  simp [strEndsWith]

theorem strStartsWith_iff {s t : String} : strStartsWith s t = true ↔ t.data <+: s.data := by
  simp [strStartsWith]

theorem take_append_len {α : Type} (l₁ l₂ : List α) (n : Nat) :
    (l₁ ++ l₂).take (l₁.length + n) = l₁ ++ l₂.take n := by
  induction l₁ with
  | nil => simp
  | cons a l ih => simp [List.take_succ_cons, Nat.succ_add, ih]

/-- `os.path.splitext` on a name of the shape `"aligned." ++ m ++ ".sam"`
drops exactly the final `".sam"`: the last dot of such a name is the one
introduced by `".sam"`. -/
theorem splitextRootList_sandwich (m : List Char) :
    splitextRootList ("aligned.".data ++ (m ++ ".sam".data)) = "aligned.".data ++ m := by
  have h8 : "aligned.".data.length = 8 := rfl
  have h4 : ".sam".data.length = 4 := rfl
  have hrev : ("aligned.".data ++ (m ++ ".sam".data)).reverse =
      'm' :: 'a' :: 's' :: '.' :: (m.reverse ++ "aligned.".data.reverse) := by
    simp [List.reverse_append]
  have hext : (("aligned.".data ++ (m ++ ".sam".data)).reverse.takeWhile
      (fun c => decide (c ≠ '.'))) = ['m', 'a', 's'] := by
    rw [hrev, List.takeWhile_cons_of_pos (by decide),
      List.takeWhile_cons_of_pos (by decide), List.takeWhile_cons_of_pos (by decide),
      List.takeWhile_cons_of_neg (by decide)]
  have hlen : ("aligned.".data ++ (m ++ ".sam".data)).length = m.length + 12 := by
    simp only [List.length_append, h8, h4]
    omega
  have htake : ("aligned.".data ++ (m ++ ".sam".data)).take
      ("aligned.".data.length + m.length) = "aligned.".data ++ m := by
    rw [take_append_len]
    congr 1
    exact List.take_left m ".sam".data
  simp only [splitextRootList]
  rw [hext]
  rw [if_neg (by simp only [List.length_cons, List.length_nil, hlen]; omega)]
  have hidx : ("aligned.".data ++ (m ++ ".sam".data)).length -
      (['m', 'a', 's'] : List Char).length - 1 = "aligned.".data.length + m.length := by
    simp only [List.length_cons, List.length_nil, hlen, h8]
    omega
  rw [hidx, htake]
  have hall : ¬ ((("aligned.".data ++ m).all (fun c => decide (c = '.'))) = true) := by
    intro hall
    have ha : 'a' ∈ "aligned.".data ++ m :=
      List.mem_append.mpr (Or.inl (by decide))
    have := List.all_eq_true.mp hall 'a' ha
    simp at this
  rw [if_neg hall]

/-- `os.path.splitext(s)[0]` for `s = "aligned." ++ r ++ ".sam"`. -/
theorem splitextRoot_sandwich (r : String) :
    splitextRoot ("aligned." ++ r ++ ".sam") = "aligned." ++ r := by
  unfold splitextRoot
  have hd : ("aligned." ++ r ++ ".sam").data =
      "aligned.".data ++ (r.data ++ ".sam".data) := by
    simp
  rw [hd, splitextRootList_sandwich]
  have hd2 : ("aligned." ++ r).data = "aligned.".data ++ r.data := by simp
  rw [← hd2]

/-- A name beginning with `"aligned."` does not begin with `"sorted."`. -/
theorem strStartsWith_sorted_of_aligned {s : String} (h : "aligned.".data <+: s.data) :
    strStartsWith s "sorted." = false := by
  unfold strStartsWith
  rw [decide_eq_false_iff_not]
  intro h'
  obtain ⟨t, ht⟩ := h
  rw [← ht] at h'
  have h'' : ('s' :: "orted.".data) <+: ('a' :: ("ligned.".data ++ t)) := h'
  rw [List.cons_prefix_cons] at h''
  exact absurd h''.1 (by decide)

/-- The step-4 predicate of `trim_and_map_transcripts` rejects any name
beginning with `"aligned."`. -/
theorem phase4_pred_false {x : String} (h : "aligned.".data <+: x.data) :
    (strStartsWith x "sorted." && strEndsWith x ".bam") = false := by
  rw [strStartsWith_sorted_of_aligned h, Bool.false_and]

theorem strEndsWith_append_self (s t : String) : strEndsWith (s ++ t) t = true := by
  rw [strEndsWith_iff, String.data_append]
  exact List.suffix_append _ _

/-! ## Lemmas about `stageStep` and the individual stages -/

theorem stageStep_error (acc : List (List String)) (r : StageResult)
    (k : List (List String) → FS → FsPath → MainResult) {e : PyErr}
    (h : r.ret = .error e) :
    stageStep acc r k = ⟨.error (mainHandler e), r.fs, acc ++ r.invocations⟩ := by
  obtain ⟨ret, fs, inv⟩ := r
  cases ret with
  | error e' =>
    have he : e' = e := by injection h
    subst he
    rfl
  | ok p => exact absurd h (by simp [StageResult.ret])

theorem stageStep_ok (acc : List (List String)) (r : StageResult)
    (k : List (List String) → FS → FsPath → MainResult) {p : FsPath}
    (h : r.ret = .ok p) :
    stageStep acc r k = k (acc ++ r.invocations) r.fs p := by
  obtain ⟨ret, fs, inv⟩ := r
  cases ret with
  | ok q =>
    have he : q = p := by injection h
    subst he
    rfl
  | error e => exact absurd h (by simp [StageResult.ret])

/-- On a run where every external command succeeds and the input directory
exists, `process_fastq_files` returns the sibling `FASTQ_output` directory
and performs one `cutadapt` invocation per `_1.fastq` file in listing order. -/
theorem process_spec (runOk : List String → Bool) (fs : FS) (d : FsPath)
    (hall : ∀ c, runOk c = true) (hd : fs.isdir d = true) :
    process_fastq_files runOk fs d =
      ⟨.ok (pathDirname d ++ ["FASTQ_output"]),
       (stageLoop runOk (fun f => strEndsWith f "_1.fastq")
         (cutadaptCommand d (pathDirname d ++ ["FASTQ_output"]))
         (cutadaptOutputs (pathDirname d ++ ["FASTQ_output"]))
         (fs.makedirs (pathDirname d ++ ["FASTQ_output"]))
         ((fs.makedirs (pathDirname d ++ ["FASTQ_output"])).listdir d)).fs,
       (((fs.makedirs (pathDirname d ++ ["FASTQ_output"])).listdir d).filter
         (fun f => strEndsWith f "_1.fastq")).map
           (cutadaptCommand d (pathDirname d ++ ["FASTQ_output"]))⟩ := by
  have h := stageLoop_all_ok runOk (fun f => strEndsWith f "_1.fastq")
    (cutadaptCommand d (pathDirname d ++ ["FASTQ_output"]))
    (cutadaptOutputs (pathDirname d ++ ["FASTQ_output"]))
    ((fs.makedirs (pathDirname d ++ ["FASTQ_output"])).listdir d)
    (fs.makedirs (pathDirname d ++ ["FASTQ_output"]))
    (fun f _ _ => hall _)
  simp only [process_fastq_files, resolveOutputDir]
  rw [if_pos hd, if_pos h.1, h.2]

theorem process_dirs (runOk : List String → Bool) (fs : FS) (d : FsPath)
    (hd : fs.isdir d = true) :
    (process_fastq_files runOk fs d).fs.dirs =
      (fs.makedirs (pathDirname d ++ ["FASTQ_output"])).dirs := by
  simp only [process_fastq_files, resolveOutputDir]
  rw [if_pos hd]
  split
  · exact stageLoop_dirs _ _ _ _ _ _
  · exact stageLoop_dirs _ _ _ _ _ _

theorem process_files_mono (runOk : List String → Bool) (fs : FS) (d : FsPath)
    {q : FsPath} (h : q ∈ fs.files) :
    q ∈ (process_fastq_files runOk fs d).fs.files := by
  simp only [process_fastq_files, resolveOutputDir]
  split
  · split
    · exact stageLoop_files_mono _ _ _ _ _ _ (by rw [makedirs_files]; exact h)
    · exact stageLoop_files_mono _ _ _ _ _ _ (by rw [makedirs_files]; exact h)
  · exact h

theorem process_files_mem (runOk : List String → Bool) (fs : FS) (d : FsPath)
    {q : FsPath} (h : q ∈ (process_fastq_files runOk fs d).fs.files) :
    q ∈ fs.files ∨ q.dropLast = pathDirname d ++ ["FASTQ_output"] := by
  simp only [process_fastq_files, resolveOutputDir] at h
  by_cases hd : fs.isdir d = true
  · rw [if_pos hd] at h
    have h' : q ∈ (stageLoop runOk (fun f => strEndsWith f "_1.fastq")
        (cutadaptCommand d (pathDirname d ++ ["FASTQ_output"]))
        (cutadaptOutputs (pathDirname d ++ ["FASTQ_output"]))
        (fs.makedirs (pathDirname d ++ ["FASTQ_output"]))
        ((fs.makedirs (pathDirname d ++ ["FASTQ_output"])).listdir d)).fs.files := by
      split at h <;> exact h
    rcases mem_stageLoop_files _ _ _ _ _ _ h' with h3 | ⟨f, _, _, hout⟩
    · rw [makedirs_files] at h3
      exact Or.inl h3
    · right
      simp only [cutadaptOutputs, List.mem_cons, List.not_mem_nil, or_false] at hout
      rcases hout with rfl | rfl <;> exact dropLast_snoc _ _
  · rw [if_neg hd] at h
    exact Or.inl h

theorem process_listdir (runOk : List String → Bool) (fs : FS) (d : FsPath)
    {e : FsPath} (h1 : pathDirname d ++ ["FASTQ_output"] ≠ e)
    (h2 : pathDirname d ≠ e) :
    (process_fastq_files runOk fs d).fs.listdir e = fs.listdir e := by
  simp only [process_fastq_files, resolveOutputDir]
  have houts : ∀ f : String,
      ∀ p ∈ cutadaptOutputs (pathDirname d ++ ["FASTQ_output"]) f, p.dropLast ≠ e := by
    intro f p hp
    simp only [cutadaptOutputs, List.mem_cons, List.not_mem_nil, or_false] at hp
    rcases hp with rfl | rfl <;> rw [dropLast_snoc] <;> exact h1
  have key : (stageLoop runOk (fun f => strEndsWith f "_1.fastq")
      (cutadaptCommand d (pathDirname d ++ ["FASTQ_output"]))
      (cutadaptOutputs (pathDirname d ++ ["FASTQ_output"]))
      (fs.makedirs (pathDirname d ++ ["FASTQ_output"]))
      ((fs.makedirs (pathDirname d ++ ["FASTQ_output"])).listdir d)).fs.listdir e =
      fs.listdir e := by
    rw [stageLoop_listdir_of_ne _ _ _ _ _ _ houts]
    exact listdir_makedirs_of_ne fs (by rw [dropLast_snoc]; exact h2)
  split
  · split
    · exact key
    · exact key
  · rfl

/-- On a run where every external command succeeds, the input directory
exists and the genome index exists, `align_with_hisat2` returns the sibling
`hisat2_output` directory and performs one `hisat2` invocation per file whose
name contains `trimmed`, in listing order. -/
theorem align_spec (runOk : List String → Bool) (fs : FS) (d gi : FsPath)
    (hall : ∀ c, runOk c = true) (hd : fs.isdir d = true)
    (hgi : fs.isfile gi = true) :
    align_with_hisat2 runOk fs d gi =
      ⟨.ok (pathDirname d ++ ["hisat2_output"]),
       (stageLoop runOk (fun f => strContains f "trimmed")
         (hisat2Command d (pathDirname d ++ ["hisat2_output"]) gi)
         (hisat2Outputs (pathDirname d ++ ["hisat2_output"]))
         (fs.makedirs (pathDirname d ++ ["hisat2_output"]))
         ((fs.makedirs (pathDirname d ++ ["hisat2_output"])).listdir d)).fs,
       (((fs.makedirs (pathDirname d ++ ["hisat2_output"])).listdir d).filter
         (fun f => strContains f "trimmed")).map
           (hisat2Command d (pathDirname d ++ ["hisat2_output"]) gi)⟩ := by
  have h := stageLoop_all_ok runOk (fun f => strContains f "trimmed")
    (hisat2Command d (pathDirname d ++ ["hisat2_output"]) gi)
    (hisat2Outputs (pathDirname d ++ ["hisat2_output"]))
    ((fs.makedirs (pathDirname d ++ ["hisat2_output"])).listdir d)
    (fs.makedirs (pathDirname d ++ ["hisat2_output"]))
    (fun f _ _ => hall _)
  have hgi' : (fs.makedirs (pathDirname d ++ ["hisat2_output"])).isfile gi = true := by
    rw [isfile_makedirs]; exact hgi
  simp only [align_with_hisat2, resolveOutputDir]
  rw [if_pos hd, if_pos hgi', if_pos h.1, h.2]

theorem align_dirs (runOk : List String → Bool) (fs : FS) (d gi : FsPath)
    (hd : fs.isdir d = true) :
    (align_with_hisat2 runOk fs d gi).fs.dirs =
      (fs.makedirs (pathDirname d ++ ["hisat2_output"])).dirs := by
  simp only [align_with_hisat2, resolveOutputDir]
  rw [if_pos hd]
  split
  · split
    · exact stageLoop_dirs _ _ _ _ _ _
    · exact stageLoop_dirs _ _ _ _ _ _
  · rfl

theorem align_files_mono (runOk : List String → Bool) (fs : FS) (d gi : FsPath)
    {q : FsPath} (h : q ∈ fs.files) :
    q ∈ (align_with_hisat2 runOk fs d gi).fs.files := by
  simp only [align_with_hisat2, resolveOutputDir]
  split
  · split
    · split
      · exact stageLoop_files_mono _ _ _ _ _ _ (by rw [makedirs_files]; exact h)
      · exact stageLoop_files_mono _ _ _ _ _ _ (by rw [makedirs_files]; exact h)
    · rw [makedirs_files]; exact h
  · exact h

theorem align_files_mem (runOk : List String → Bool) (fs : FS) (d gi : FsPath)
    {q : FsPath} (h : q ∈ (align_with_hisat2 runOk fs d gi).fs.files) :
    q ∈ fs.files ∨ ∃ r : String,
      q = (pathDirname d ++ ["hisat2_output"]) ++ ["aligned." ++ r ++ ".sam"] := by
  simp only [align_with_hisat2, resolveOutputDir] at h
  by_cases hd : fs.isdir d = true
  · rw [if_pos hd] at h
    by_cases hgi : (fs.makedirs (pathDirname d ++ ["hisat2_output"])).isfile gi = true
    · rw [if_pos hgi] at h
      have h' : q ∈ (stageLoop runOk (fun f => strContains f "trimmed")
          (hisat2Command d (pathDirname d ++ ["hisat2_output"]) gi)
          (hisat2Outputs (pathDirname d ++ ["hisat2_output"]))
          (fs.makedirs (pathDirname d ++ ["hisat2_output"]))
          ((fs.makedirs (pathDirname d ++ ["hisat2_output"])).listdir d)).fs.files := by
        split at h <;> exact h
      rcases mem_stageLoop_files _ _ _ _ _ _ h' with h3 | ⟨f, _, _, hout⟩
      · rw [makedirs_files] at h3
        exact Or.inl h3
      · right
        simp only [hisat2Outputs, List.mem_cons, List.not_mem_nil, or_false] at hout
        exact ⟨splitextRoot f, hout⟩
    · rw [if_neg hgi] at h
      rw [makedirs_files] at h
      exact Or.inl h
  · rw [if_neg hd] at h
    exact Or.inl h

theorem align_listdir (runOk : List String → Bool) (fs : FS) (d gi : FsPath)
    {e : FsPath} (h1 : pathDirname d ++ ["hisat2_output"] ≠ e)
    (h2 : pathDirname d ≠ e) :
    (align_with_hisat2 runOk fs d gi).fs.listdir e = fs.listdir e := by
  simp only [align_with_hisat2, resolveOutputDir]
  have houts : ∀ f : String,
      ∀ p ∈ hisat2Outputs (pathDirname d ++ ["hisat2_output"]) f, p.dropLast ≠ e := by
    intro f p hp
    simp only [hisat2Outputs, List.mem_cons, List.not_mem_nil, or_false] at hp
    subst hp
    rw [dropLast_snoc]
    exact h1
  have hmk : (fs.makedirs (pathDirname d ++ ["hisat2_output"])).listdir e = fs.listdir e :=
    listdir_makedirs_of_ne fs (by rw [dropLast_snoc]; exact h2)
  have key : (stageLoop runOk (fun f => strContains f "trimmed")
      (hisat2Command d (pathDirname d ++ ["hisat2_output"]) gi)
      (hisat2Outputs (pathDirname d ++ ["hisat2_output"]))
      (fs.makedirs (pathDirname d ++ ["hisat2_output"]))
      ((fs.makedirs (pathDirname d ++ ["hisat2_output"])).listdir d)).fs.listdir e =
      fs.listdir e := by
    rw [stageLoop_listdir_of_ne _ _ _ _ _ _ houts]
    exact hmk
  split
  · split
    · split
      · exact key
      · exact key
    · exact hmk
  · rfl

/-- All outputs of the covered-transcripts `stringtie` invocations live in
the `mapped_transcripts` output directory. -/
theorem stringtieOuts_parent (d : FsPath) :
    ∀ f : String,
      ∀ p ∈ stringtieCoveredOutputs (pathDirname d ++ ["mapped_transcripts"]) f,
        p.dropLast = pathDirname d ++ ["mapped_transcripts"] := by
  intro f p hp
  simp only [stringtieCoveredOutputs, List.mem_cons, List.not_mem_nil, or_false] at hp
  subst hp
  exact dropLast_snoc _ _

theorem stringtieOuts_ne {d e : FsPath}
    (h1 : pathDirname d ++ ["mapped_transcripts"] ≠ e) :
    ∀ f : String,
      ∀ p ∈ stringtieCoveredOutputs (pathDirname d ++ ["mapped_transcripts"]) f,
        p.dropLast ≠ e := by
  intro f p hp
  rw [stringtieOuts_parent d f p hp]
  exact h1

theorem tmAfterDcx_dirs (fs : FS) (d : FsPath) :
    (tmAfterDcx fs d).dirs =
      (fs.makedirs (pathDirname d ++ ["mapped_transcripts"])).dirs := by
  simp only [tmAfterDcx, resolveOutputDir, touch_dirs]

theorem tmAfterDcx_files_mono {q : FsPath} (fs : FS) (d : FsPath)
    (h : q ∈ fs.files) : q ∈ (tmAfterDcx fs d).files := by
  simp only [tmAfterDcx, resolveOutputDir]
  exact mem_touch_files.mpr (Or.inl (by rw [makedirs_files]; exact h))

theorem tmAfterDcx_files_mem {q : FsPath} (fs : FS) (d : FsPath)
    (h : q ∈ (tmAfterDcx fs d).files) :
    q ∈ fs.files ∨ q.dropLast = pathDirname d ++ ["mapped_transcripts"] := by
  simp only [tmAfterDcx, resolveOutputDir] at h
  rcases mem_touch_files.mp h with h' | rfl
  · rw [makedirs_files] at h'
    exact Or.inl h'
  · exact Or.inr (dropLast_snoc _ _)

theorem tmAfterDcx_listdir (fs : FS) (d : FsPath) {e : FsPath}
    (h1 : pathDirname d ++ ["mapped_transcripts"] ≠ e)
    (h2 : pathDirname d ≠ e) :
    (tmAfterDcx fs d).listdir e = fs.listdir e := by
  simp only [tmAfterDcx, resolveOutputDir]
  rw [listdir_touch_of_ne _ (by rw [dropLast_snoc]; exact h1)]
  exact listdir_makedirs_of_ne fs (by rw [dropLast_snoc]; exact h2)

theorem tmStep2_dirs (runOk : List String → Bool) (fs : FS) (d : FsPath) :
    (tmStep2Loop runOk fs d).fs.dirs =
      (fs.makedirs (pathDirname d ++ ["mapped_transcripts"])).dirs := by
  simp only [tmStep2Loop]
  rw [stageLoop_dirs]
  exact tmAfterDcx_dirs fs d

theorem tmStep2_files_mono {q : FsPath} (runOk : List String → Bool) (fs : FS)
    (d : FsPath) (h : q ∈ fs.files) : q ∈ (tmStep2Loop runOk fs d).fs.files := by
  simp only [tmStep2Loop]
  exact stageLoop_files_mono _ _ _ _ _ _ (tmAfterDcx_files_mono fs d h)

theorem tmStep2_files_mem {q : FsPath} (runOk : List String → Bool) (fs : FS)
    (d : FsPath) (h : q ∈ (tmStep2Loop runOk fs d).fs.files) :
    q ∈ fs.files ∨ q.dropLast = pathDirname d ++ ["mapped_transcripts"] := by
  simp only [tmStep2Loop] at h
  rcases mem_stageLoop_files _ _ _ _ _ _ h with h' | ⟨f, _, _, hout⟩
  · exact tmAfterDcx_files_mem fs d h'
  · exact Or.inr (stringtieOuts_parent d f q hout)

theorem tmStep2_listdir (runOk : List String → Bool) (fs : FS) (d : FsPath)
    {e : FsPath} (h1 : pathDirname d ++ ["mapped_transcripts"] ≠ e)
    (h2 : pathDirname d ≠ e) :
    (tmStep2Loop runOk fs d).fs.listdir e = fs.listdir e := by
  simp only [tmStep2Loop]
  rw [stageLoop_listdir_of_ne _ _ _ _ _ _ (stringtieOuts_ne h1)]
  exact tmAfterDcx_listdir fs d h1 h2

theorem tmManifestFs_dirs (runOk : List String → Bool) (fs : FS) (d : FsPath) :
    (tmManifestFs runOk fs d).dirs =
      (fs.makedirs (pathDirname d ++ ["mapped_transcripts"])).dirs := by
  simp only [tmManifestFs]
  rw [touch_dirs]
  exact tmStep2_dirs runOk fs d

theorem tmManifestFs_files_mono {q : FsPath} (runOk : List String → Bool) (fs : FS)
    (d : FsPath) (h : q ∈ fs.files) : q ∈ (tmManifestFs runOk fs d).files := by
  simp only [tmManifestFs]
  exact mem_touch_files.mpr (Or.inl (tmStep2_files_mono runOk fs d h))

theorem tmManifestFs_files_mem {q : FsPath} (runOk : List String → Bool) (fs : FS)
    (d : FsPath) (h : q ∈ (tmManifestFs runOk fs d).files) :
    q ∈ fs.files ∨ q.dropLast = pathDirname d ++ ["mapped_transcripts"] := by
  simp only [tmManifestFs] at h
  rcases mem_touch_files.mp h with h' | rfl
  · exact tmStep2_files_mem runOk fs d h'
  · exact Or.inr (dropLast_snoc _ _)

theorem tmManifestFs_listdir (runOk : List String → Bool) (fs : FS) (d : FsPath)
    {e : FsPath} (h1 : pathDirname d ++ ["mapped_transcripts"] ≠ e)
    (h2 : pathDirname d ≠ e) :
    (tmManifestFs runOk fs d).listdir e = fs.listdir e := by
  simp only [tmManifestFs]
  rw [listdir_touch_of_ne _ (by rw [dropLast_snoc]; exact h1)]
  exact tmStep2_listdir runOk fs d h1 h2

theorem tmMergedFs_dirs (runOk : List String → Bool) (fs : FS) (d : FsPath) :
    (tmMergedFs runOk fs d).dirs =
      (fs.makedirs (pathDirname d ++ ["mapped_transcripts"])).dirs := by
  simp only [tmMergedFs]
  rw [touch_dirs]
  exact tmManifestFs_dirs runOk fs d

theorem tmMergedFs_files_mono {q : FsPath} (runOk : List String → Bool) (fs : FS)
    (d : FsPath) (h : q ∈ fs.files) : q ∈ (tmMergedFs runOk fs d).files := by
  simp only [tmMergedFs]
  exact mem_touch_files.mpr (Or.inl (tmManifestFs_files_mono runOk fs d h))

theorem tmMergedFs_files_mem {q : FsPath} (runOk : List String → Bool) (fs : FS)
    (d : FsPath) (h : q ∈ (tmMergedFs runOk fs d).files) :
    q ∈ fs.files ∨ q.dropLast = pathDirname d ++ ["mapped_transcripts"] := by
  simp only [tmMergedFs] at h
  rcases mem_touch_files.mp h with h' | rfl
  · exact tmManifestFs_files_mem runOk fs d h'
  · exact Or.inr (dropLast_snoc _ _)

theorem tmMergedFs_listdir (runOk : List String → Bool) (fs : FS) (d : FsPath)
    {e : FsPath} (h1 : pathDirname d ++ ["mapped_transcripts"] ≠ e)
    (h2 : pathDirname d ≠ e) :
    (tmMergedFs runOk fs d).listdir e = fs.listdir e := by
  simp only [tmMergedFs]
  rw [listdir_touch_of_ne _ (by rw [dropLast_snoc]; exact h1)]
  exact tmManifestFs_listdir runOk fs d h1 h2

theorem tmStep4_dirs (runOk : List String → Bool) (fs : FS) (d : FsPath) :
    (tmStep4Loop runOk fs d).fs.dirs =
      (fs.makedirs (pathDirname d ++ ["mapped_transcripts"])).dirs := by
  simp only [tmStep4Loop]
  rw [stageLoop_dirs]
  exact tmMergedFs_dirs runOk fs d

theorem tmStep4_files_mono {q : FsPath} (runOk : List String → Bool) (fs : FS)
    (d : FsPath) (h : q ∈ fs.files) : q ∈ (tmStep4Loop runOk fs d).fs.files := by
  simp only [tmStep4Loop]
  exact stageLoop_files_mono _ _ _ _ _ _ (tmMergedFs_files_mono runOk fs d h)

theorem tmStep4_files_mem {q : FsPath} (runOk : List String → Bool) (fs : FS)
    (d : FsPath) (h : q ∈ (tmStep4Loop runOk fs d).fs.files) :
    q ∈ fs.files ∨ q.dropLast = pathDirname d ++ ["mapped_transcripts"] := by
  simp only [tmStep4Loop] at h
  rcases mem_stageLoop_files _ _ _ _ _ _ h with h' | ⟨f, _, _, hout⟩
  · exact tmMergedFs_files_mem runOk fs d h'
  · exact Or.inr (stringtieOuts_parent d f q hout)

theorem tmStep4_listdir (runOk : List String → Bool) (fs : FS) (d : FsPath)
    {e : FsPath} (h1 : pathDirname d ++ ["mapped_transcripts"] ≠ e)
    (h2 : pathDirname d ≠ e) :
    (tmStep4Loop runOk fs d).fs.listdir e = fs.listdir e := by
  simp only [tmStep4Loop]
  rw [stageLoop_listdir_of_ne _ _ _ _ _ _ (stringtieOuts_ne h1)]
  exact tmMergedFs_listdir runOk fs d h1 h2

theorem tm_dirs (runOk : List String → Bool) (fs : FS) (d g : FsPath)
    (hd : fs.isdir d = true) (hg : fs.isfile g = true) :
    (trim_and_map_transcripts runOk fs d g).fs.dirs =
      (fs.makedirs (pathDirname d ++ ["mapped_transcripts"])).dirs := by
  simp only [trim_and_map_transcripts]
  rw [if_pos hd, if_pos hg]
  by_cases ha : runOk (awkCommand g) = true
  · rw [if_pos ha]
    by_cases h2 : (tmStep2Loop runOk fs d).ok = true
    · rw [if_pos h2]
      by_cases hm : runOk (mergeCommand (pathDirname d ++ ["mapped_transcripts"])) = true
      · rw [if_pos hm]
        by_cases h4 : (tmStep4Loop runOk fs d).ok = true
        · rw [if_pos h4]
          dsimp only
          exact tmStep4_dirs runOk fs d
        · rw [if_neg h4]
          dsimp only
          exact tmStep4_dirs runOk fs d
      · rw [if_neg hm]
        dsimp only
        exact tmManifestFs_dirs runOk fs d
    · rw [if_neg h2]
      dsimp only
      exact tmStep2_dirs runOk fs d
  · rw [if_neg ha]
    dsimp only
    exact tmAfterDcx_dirs fs d

theorem tm_files_mono (runOk : List String → Bool) (fs : FS) (d g : FsPath)
    {q : FsPath} (h : q ∈ fs.files) :
    q ∈ (trim_and_map_transcripts runOk fs d g).fs.files := by
  simp only [trim_and_map_transcripts]
  by_cases hd : fs.isdir d = true
  · rw [if_pos hd]
    by_cases hg : fs.isfile g = true
    · rw [if_pos hg]
      by_cases ha : runOk (awkCommand g) = true
      · rw [if_pos ha]
        by_cases h2 : (tmStep2Loop runOk fs d).ok = true
        · rw [if_pos h2]
          by_cases hm : runOk (mergeCommand (pathDirname d ++ ["mapped_transcripts"])) = true
          · rw [if_pos hm]
            by_cases h4 : (tmStep4Loop runOk fs d).ok = true
            · rw [if_pos h4]
              dsimp only
              exact tmStep4_files_mono runOk fs d h
            · rw [if_neg h4]
              dsimp only
              exact tmStep4_files_mono runOk fs d h
          · rw [if_neg hm]
            dsimp only
            exact tmManifestFs_files_mono runOk fs d h
        · rw [if_neg h2]
          dsimp only
          exact tmStep2_files_mono runOk fs d h
      · rw [if_neg ha]
        dsimp only
        exact tmAfterDcx_files_mono fs d h
    · rw [if_neg hg]
      exact h
  · rw [if_neg hd]
    exact h

theorem tm_files_mem (runOk : List String → Bool) (fs : FS) (d g : FsPath)
    {q : FsPath} (h : q ∈ (trim_and_map_transcripts runOk fs d g).fs.files) :
    q ∈ fs.files ∨ q.dropLast = pathDirname d ++ ["mapped_transcripts"] := by
  simp only [trim_and_map_transcripts] at h
  by_cases hd : fs.isdir d = true
  · rw [if_pos hd] at h
    by_cases hg : fs.isfile g = true
    · rw [if_pos hg] at h
      by_cases ha : runOk (awkCommand g) = true
      · rw [if_pos ha] at h
        by_cases h2 : (tmStep2Loop runOk fs d).ok = true
        · rw [if_pos h2] at h
          by_cases hm : runOk (mergeCommand (pathDirname d ++ ["mapped_transcripts"])) = true
          · rw [if_pos hm] at h
            by_cases h4 : (tmStep4Loop runOk fs d).ok = true
            · rw [if_pos h4] at h
              dsimp only at h
              exact tmStep4_files_mem runOk fs d h
            · rw [if_neg h4] at h
              dsimp only at h
              exact tmStep4_files_mem runOk fs d h
          · rw [if_neg hm] at h
            dsimp only at h
            exact tmManifestFs_files_mem runOk fs d h
        · rw [if_neg h2] at h
          dsimp only at h
          exact tmStep2_files_mem runOk fs d h
      · rw [if_neg ha] at h
        dsimp only at h
        exact tmAfterDcx_files_mem fs d h
    · rw [if_neg hg] at h
      exact Or.inl h
  · rw [if_neg hd] at h
    exact Or.inl h

theorem tm_listdir (runOk : List String → Bool) (fs : FS) (d g : FsPath)
    {e : FsPath} (h1 : pathDirname d ++ ["mapped_transcripts"] ≠ e)
    (h2 : pathDirname d ≠ e) :
    (trim_and_map_transcripts runOk fs d g).fs.listdir e = fs.listdir e := by
  simp only [trim_and_map_transcripts]
  by_cases hd : fs.isdir d = true
  · rw [if_pos hd]
    by_cases hg : fs.isfile g = true
    · rw [if_pos hg]
      by_cases ha : runOk (awkCommand g) = true
      · rw [if_pos ha]
        by_cases hs2 : (tmStep2Loop runOk fs d).ok = true
        · rw [if_pos hs2]
          by_cases hm : runOk (mergeCommand (pathDirname d ++ ["mapped_transcripts"])) = true
          · rw [if_pos hm]
            by_cases hs4 : (tmStep4Loop runOk fs d).ok = true
            · rw [if_pos hs4]
              dsimp only
              exact tmStep4_listdir runOk fs d h1 h2
            · rw [if_neg hs4]
              dsimp only
              exact tmStep4_listdir runOk fs d h1 h2
          · rw [if_neg hm]
            dsimp only
            exact tmManifestFs_listdir runOk fs d h1 h2
        · rw [if_neg hs2]
          dsimp only
          exact tmStep2_listdir runOk fs d h1 h2
      · rw [if_neg ha]
        dsimp only
        exact tmAfterDcx_listdir fs d h1 h2
    · rw [if_neg hg]
  · rw [if_neg hd]

theorem tmStep2_ok (runOk : List String → Bool) (fs : FS) (d : FsPath)
    (hall : ∀ c, runOk c = true) : (tmStep2Loop runOk fs d).ok = true := by
  simp only [tmStep2Loop]
  exact (stageLoop_all_ok _ _ _ _ _ _ (fun f _ _ => hall _)).1

theorem tmStep4_ok (runOk : List String → Bool) (fs : FS) (d : FsPath)
    (hall : ∀ c, runOk c = true) : (tmStep4Loop runOk fs d).ok = true := by
  simp only [tmStep4Loop]
  exact (stageLoop_all_ok _ _ _ _ _ _ (fun f _ _ => hall _)).1

theorem tm_ret (runOk : List String → Bool) (fs : FS) (d g : FsPath)
    (hall : ∀ c, runOk c = true) (hd : fs.isdir d = true)
    (hg : fs.isfile g = true) :
    (trim_and_map_transcripts runOk fs d g).ret =
      .ok (pathDirname d ++ ["mapped_transcripts"]) := by
  simp only [trim_and_map_transcripts]
  rw [if_pos hd, if_pos hg, if_pos (hall _), if_pos (tmStep2_ok runOk fs d hall),
    if_pos (hall _), if_pos (tmStep4_ok runOk fs d hall)]

/-- On a fully successful run of `trim_and_map_transcripts` whose input
listing contains no `sorted.*.bam` name, the stage's invocations are: the
`awk` filter, the step-2 `stringtie` calls, and the `stringtie --merge` call
— step 4 selects no file, so nothing follows the merge. -/
theorem tm_success (runOk : List String → Bool) (fs : FS) (d g : FsPath)
    (hall : ∀ c, runOk c = true) (hd : fs.isdir d = true)
    (hg : fs.isfile g = true)
    (hne1 : pathDirname d ++ ["mapped_transcripts"] ≠ d)
    (hne2 : pathDirname d ≠ d)
    (hP4 : ∀ x ∈ fs.listdir d,
      (strStartsWith x "sorted." && strEndsWith x ".bam") = false) :
    (trim_and_map_transcripts runOk fs d g).ret =
      .ok (pathDirname d ++ ["mapped_transcripts"]) ∧
    (trim_and_map_transcripts runOk fs d g).invocations =
      awkCommand g :: (tmStep2Loop runOk fs d).invocations ++
        [mergeCommand (pathDirname d ++ ["mapped_transcripts"])] := by
  have h4 : tmStep4Loop runOk fs d = ⟨tmMergedFs runOk fs d, [], true⟩ := by
    simp only [tmStep4Loop]
    apply stageLoop_no_match
    intro f hf
    rw [tmMergedFs_listdir runOk fs d hne1 hne2] at hf
    exact hP4 f hf
  simp only [trim_and_map_transcripts]
  rw [if_pos hd, if_pos hg, if_pos (hall _), if_pos (tmStep2_ok runOk fs d hall),
    if_pos (hall _), h4]
  rw [if_pos rfl]
  exact ⟨rfl, rfl⟩

theorem isfile_iff {fs : FS} {p : FsPath} : fs.isfile p = true ↔ p ∈ fs.files := by
  simp [FS.isfile]

theorem isdir_iff {fs : FS} {p : FsPath} : fs.isdir p = true ↔ p ∈ fs.dirs := by
  simp [FS.isdir]

theorem makedirs_eq_of_mem {fs : FS} {p : FsPath} (h : p ∈ fs.dirs) :
    fs.makedirs p = fs := by
  unfold FS.makedirs
  rw [if_pos h]

theorem snoc_ne_of_getLastD {d : FsPath} {L : String} (h : d.getLastD "" ≠ L) :
    pathDirname d ++ [L] ≠ d := by
  intro he
  apply h
  have := congrArg (fun l : List String => l.getLastD "") he
  simpa using this.symm

/-! ## The claims -/

/-- Claim C5: for every filesystem state, input directory `d` and stage
label `L`, the resolved output directory equals `parent(d)/L` and is a
deterministic pure function of `d` and `L` (the model has no randomness or
timestamps): resolving twice yields the same path, the directory exists
after either call, and re-creating it when it already exists is a no-op and
raises no error (`exist_ok=True`; the model's `makedirs` has no failure
case). -/
theorem claim_C5 (fs : FS) (d : FsPath) (L : String) :
    (resolveOutputDir fs d L).1 = pathDirname d ++ [L] ∧
    (resolveOutputDir ((resolveOutputDir fs d L).2) d L).1 =
      (resolveOutputDir fs d L).1 ∧
    ((resolveOutputDir fs d L).2).isdir (pathDirname d ++ [L]) = true ∧
    (resolveOutputDir ((resolveOutputDir fs d L).2) d L).2 =
      (resolveOutputDir fs d L).2 := by
  refine ⟨rfl, rfl, isdir_makedirs_self fs _, ?_⟩
  simp only [resolveOutputDir]
  exact makedirs_eq_of_mem (mem_makedirs_dirs.mpr (Or.inr rfl))

/-- Claim C1 (amended): the transcript stage checks its auxiliary GTF file
before creating any output directory, so a missing GTF raises
`FileNotFoundError` and leaves the filesystem unchanged; the align stage,
however, creates `hisat2_output` *before* checking the genome index, so a
missing genome index still raises `FileNotFoundError` but leaves the output
directory created. -/
theorem claim_C1 (runOk : List String → Bool) (fs : FS) (d gi g : FsPath) :
    (fs.isdir d = true → fs.isfile g = false →
      (trim_and_map_transcripts runOk fs d g).ret =
        .error (.fileNotFoundError
          ("The file \x27" ++ renderPath g ++ "\x27 does not exist.")) ∧
      (trim_and_map_transcripts runOk fs d g).fs = fs) ∧
    (fs.isdir d = true → fs.isfile gi = false →
      (align_with_hisat2 runOk fs d gi).ret =
        .error (.fileNotFoundError
          ("The genome index file \x27" ++ renderPath gi ++ "\x27 does not exist.")) ∧
      (align_with_hisat2 runOk fs d gi).fs =
        fs.makedirs (pathDirname d ++ ["hisat2_output"]) ∧
      (align_with_hisat2 runOk fs d gi).fs.isdir
        (pathDirname d ++ ["hisat2_output"]) = true) := by
  constructor
  · intro hd hg
    simp only [trim_and_map_transcripts]
    rw [if_pos hd, if_neg (by rw [hg]; exact Bool.false_ne_true)]
    exact ⟨rfl, rfl⟩
  · intro hd hgi
    simp only [align_with_hisat2, resolveOutputDir]
    rw [if_pos hd,
      if_neg (by rw [isfile_makedirs, hgi]; exact Bool.false_ne_true)]
    exact ⟨rfl, rfl, isdir_makedirs_self fs _⟩

/-- Claim C1 counterexample: with an existing input directory `/w/in` and a
missing genome index `/w/idx`, `align_with_hisat2` raises
`FileNotFoundError` but the output directory `/w/hisat2_output` *has* been
created (it was not in the initial filesystem) — refuting "the
auxiliary-file existence check precedes output-directory creation" for the
align stage. -/
theorem claim_C1_counterexample :
    (align_with_hisat2 (fun _ => true) ⟨[], [["", "w", "in"]]⟩
      ["", "w", "in"] ["", "w", "idx"]).ret =
      .error (.fileNotFoundError
        "The genome index file \x27/w/idx\x27 does not exist.") ∧
    ["", "w", "hisat2_output"] ∈
      (align_with_hisat2 (fun _ => true) ⟨[], [["", "w", "in"]]⟩
        ["", "w", "in"] ["", "w", "idx"]).fs.dirs ∧
    ["", "w", "hisat2_output"] ∉ (⟨[], [["", "w", "in"]]⟩ : FS).dirs :=
  ⟨rfl, by decide, by decide⟩

theorem claim_C1_witness :
    (trim_and_map_transcripts (fun _ => true) ⟨[], [["", "w", "in"]]⟩
      ["", "w", "in"] ["", "w", "g.gtf"]).fs = (⟨[], [["", "w", "in"]]⟩ : FS) ∧
    (align_with_hisat2 (fun _ => true) ⟨[], [["", "w", "in"]]⟩
      ["", "w", "in"] ["", "w", "idx"]).fs.isdir
      (pathDirname ["", "w", "in"] ++ ["hisat2_output"]) = true := by
  have h := claim_C1 (fun _ => true) ⟨[], [["", "w", "in"]]⟩
    ["", "w", "in"] ["", "w", "idx"] ["", "w", "g.gtf"]
  exact ⟨(h.1 (by decide) (by decide)).2, (h.2 (by decide) (by decide)).2.2⟩

/-- Claim C4: the per-file loop shared by every stage (`stageLoop`, the
embedding of `for file in listing: if pred(file): subprocess.run(cmd(file),
check=True)` — see `process_fastq_files`, `align_with_hisat2`,
`tmStep2Loop`, `tmStep4Loop`, `bamLoop`): if the invocation for the `i`-th
matched file fails (non-zero exit) and the earlier ones succeed, no file
after the `i`-th in listing order is processed — the performed invocations
are exactly the first `i+1` matched ones, in order — the loop reports
failure (which the stage re-raises as `CalledProcessError`), and the output
files of the earlier successful invocations are still present afterwards
(no rollback). -/
theorem claim_C4 (runOk : List String → Bool) (pred : String → Bool)
    (cmd : String → List String) (outs : String → List FsPath)
    (l : List String) (i : Nat) (fs : FS)
    (hi : i < (l.filter pred).length)
    (hbef : ∀ j, j < i → runOk (cmd ((l.filter pred).getD j "")) = true)
    (hfail : runOk (cmd ((l.filter pred).getD i "")) = false) :
    (stageLoop runOk pred cmd outs fs l).ok = false ∧
    (stageLoop runOk pred cmd outs fs l).invocations =
      ((l.filter pred).take (i + 1)).map cmd ∧
    (∀ j, j < i → ∀ p ∈ outs ((l.filter pred).getD j ""),
      p ∈ (stageLoop runOk pred cmd outs fs l).fs.files) :=
  stageLoop_halt runOk pred cmd outs l i fs hi hbef hfail

theorem claim_C4_witness :
    (stageLoop
      (fun c => decide (c ≠ stringtieCoveredCommand ["", "i"] ["", "o"]
        ["", "o", "Dcx.gtf"] "b.bam"))
      (fun f => strEndsWith f ".bam")
      (stringtieCoveredCommand ["", "i"] ["", "o"] ["", "o", "Dcx.gtf"])
      (stringtieCoveredOutputs ["", "o"]) ⟨[], []⟩
      ["a.bam", "b.bam", "c.bam"]).ok = false ∧
    (stageLoop
      (fun c => decide (c ≠ stringtieCoveredCommand ["", "i"] ["", "o"]
        ["", "o", "Dcx.gtf"] "b.bam"))
      (fun f => strEndsWith f ".bam")
      (stringtieCoveredCommand ["", "i"] ["", "o"] ["", "o", "Dcx.gtf"])
      (stringtieCoveredOutputs ["", "o"]) ⟨[], []⟩
      ["a.bam", "b.bam", "c.bam"]).invocations =
      [stringtieCoveredCommand ["", "i"] ["", "o"] ["", "o", "Dcx.gtf"] "a.bam",
       stringtieCoveredCommand ["", "i"] ["", "o"] ["", "o", "Dcx.gtf"] "b.bam"] ∧
    ["", "o", "covered_transcripts_a.gtf"] ∈
      (stageLoop
        (fun c => decide (c ≠ stringtieCoveredCommand ["", "i"] ["", "o"]
          ["", "o", "Dcx.gtf"] "b.bam"))
        (fun f => strEndsWith f ".bam")
        (stringtieCoveredCommand ["", "i"] ["", "o"] ["", "o", "Dcx.gtf"])
        (stringtieCoveredOutputs ["", "o"]) ⟨[], []⟩
        ["a.bam", "b.bam", "c.bam"]).fs.files := by
  have h := claim_C4
    (fun c => decide (c ≠ stringtieCoveredCommand ["", "i"] ["", "o"]
      ["", "o", "Dcx.gtf"] "b.bam"))
    (fun f => strEndsWith f ".bam")
    (stringtieCoveredCommand ["", "i"] ["", "o"] ["", "o", "Dcx.gtf"])
    (stringtieCoveredOutputs ["", "o"]) ["a.bam", "b.bam", "c.bam"] 1 ⟨[], []⟩
    (by decide)
    (by intro j hj
        have hj0 : j = 0 := by omega
        subst hj0
        decide)
    (by decide)
  refine ⟨h.1, by rw [h.2.1]; decide, ?_⟩
  have h3 := h.2.2 0 (by omega) ["", "o", "covered_transcripts_a.gtf"] (by decide)
  exact h3

/-- Claim C10: on an existing input directory containing no file matching
the stage's name predicate (no `_1.fastq` suffix for the trim stage, no
name containing `trimmed` for the align stage), the stage performs zero
external-tool invocations, still creates the output directory, and returns
its path successfully. -/
theorem claim_C10 (runOk : List String → Bool) (fs : FS) (d gi : FsPath) :
    (fs.isdir d = true →
      (∀ f ∈ fs.listdir d, strEndsWith f "_1.fastq" = false) →
      (process_fastq_files runOk fs d).ret =
        .ok (pathDirname d ++ ["FASTQ_output"]) ∧
      (process_fastq_files runOk fs d).invocations = [] ∧
      (process_fastq_files runOk fs d).fs.isdir
        (pathDirname d ++ ["FASTQ_output"]) = true) ∧
    (fs.isdir d = true → fs.isfile gi = true →
      (∀ f ∈ fs.listdir d, strContains f "trimmed" = false) →
      (align_with_hisat2 runOk fs d gi).ret =
        .ok (pathDirname d ++ ["hisat2_output"]) ∧
      (align_with_hisat2 runOk fs d gi).invocations = [] ∧
      (align_with_hisat2 runOk fs d gi).fs.isdir
        (pathDirname d ++ ["hisat2_output"]) = true) := by
  constructor
  · intro hd hnone
    have hlist : ∀ f ∈ (fs.makedirs (pathDirname d ++ ["FASTQ_output"])).listdir d,
        strEndsWith f "_1.fastq" = false := by
      obtain ⟨e, he, hcase⟩ := listdir_makedirs_extra fs (pathDirname d ++ ["FASTQ_output"]) d
      rw [he]
      intro f hf
      rcases List.mem_append.mp hf with hf' | hf'
      · exact hnone f hf'
      · rcases hcase with rfl | rfl
        · exact absurd hf' (List.not_mem_nil f)
        · rw [getLastD_snoc] at hf'
          rw [List.mem_singleton.mp hf']
          decide
    simp only [process_fastq_files, resolveOutputDir]
    rw [if_pos hd, stageLoop_no_match _ _ _ _ _ _ hlist, if_pos rfl]
    exact ⟨rfl, rfl, isdir_makedirs_self fs _⟩
  · intro hd hgi hnone
    have hlist : ∀ f ∈ (fs.makedirs (pathDirname d ++ ["hisat2_output"])).listdir d,
        strContains f "trimmed" = false := by
      obtain ⟨e, he, hcase⟩ := listdir_makedirs_extra fs (pathDirname d ++ ["hisat2_output"]) d
      rw [he]
      intro f hf
      rcases List.mem_append.mp hf with hf' | hf'
      · exact hnone f hf'
      · rcases hcase with rfl | rfl
        · exact absurd hf' (List.not_mem_nil f)
        · rw [getLastD_snoc] at hf'
          rw [List.mem_singleton.mp hf']
          decide
    simp only [align_with_hisat2, resolveOutputDir]
    rw [if_pos hd, if_pos (by rw [isfile_makedirs]; exact hgi),
      stageLoop_no_match _ _ _ _ _ _ hlist, if_pos rfl]
    exact ⟨rfl, rfl, isdir_makedirs_self fs _⟩

theorem claim_C10_witness :
    (process_fastq_files (fun _ => true) ⟨[["", "w", "idx"]], [["", "w", "in"]]⟩
      ["", "w", "in"]).invocations = [] ∧
    (process_fastq_files (fun _ => true) ⟨[["", "w", "idx"]], [["", "w", "in"]]⟩
      ["", "w", "in"]).ret = .ok (pathDirname ["", "w", "in"] ++ ["FASTQ_output"]) ∧
    (align_with_hisat2 (fun _ => true) ⟨[["", "w", "idx"]], [["", "w", "in"]]⟩
      ["", "w", "in"] ["", "w", "idx"]).invocations = [] ∧
    (align_with_hisat2 (fun _ => true) ⟨[["", "w", "idx"]], [["", "w", "in"]]⟩
      ["", "w", "in"] ["", "w", "idx"]).fs.isdir
      (pathDirname ["", "w", "in"] ++ ["hisat2_output"]) = true := by
  have h := claim_C10 (fun _ => true) ⟨[["", "w", "idx"]], [["", "w", "in"]]⟩
    ["", "w", "in"] ["", "w", "idx"]
  have h1 := h.1 (by decide) (by decide)
  have h2 := h.2 (by decide) (by decide) (by decide)
  exact ⟨h1.2.1, h1.1, h2.2.1, h2.2.2⟩

/-- Claim C9: for every file `f` ending in `_1.fastq` in the input listing,
the trim stage constructs the mate path by replacing the suffix with
`_2.fastq` and passes it to `cutadapt` as the final argument without
checking that the mate exists: even when the mate file is absent from the
filesystem, the stage performs the invocation and returns successfully — a
missing reverse-read file can surface only as an external-tool failure. -/
theorem claim_C9 (runOk : List String → Bool) (fs : FS) (d : FsPath) (f : String)
    (hall : ∀ c, runOk c = true) (hd : fs.isdir d = true)
    (hf : f ∈ fs.listdir d) (hsuf : strEndsWith f "_1.fastq" = true)
    (hmate : (d ++ [strDropRight f 8 ++ "_2.fastq"]) ∉ fs.files) :
    (process_fastq_files runOk fs d).ret =
      .ok (pathDirname d ++ ["FASTQ_output"]) ∧
    cutadaptCommand d (pathDirname d ++ ["FASTQ_output"]) f ∈
      (process_fastq_files runOk fs d).invocations ∧
    (cutadaptCommand d (pathDirname d ++ ["FASTQ_output"]) f).getLastD "" =
      renderPath (d ++ [strDropRight f 8 ++ "_2.fastq"]) := by
  rw [process_spec runOk fs d hall hd]
  refine ⟨rfl, ?_, rfl⟩
  dsimp only
  apply List.mem_map.mpr
  refine ⟨f, List.mem_filter.mpr ⟨?_, hsuf⟩, rfl⟩
  obtain ⟨e, he, _⟩ := listdir_makedirs_extra fs (pathDirname d ++ ["FASTQ_output"]) d
  rw [he]
  exact List.mem_append.mpr (Or.inl hf)

theorem claim_C9_witness :
    (process_fastq_files (fun _ => true)
      ⟨[["", "w", "in", "s_1.fastq"]], [["", "w", "in"]]⟩ ["", "w", "in"]).ret =
      .ok (pathDirname ["", "w", "in"] ++ ["FASTQ_output"]) ∧
    cutadaptCommand ["", "w", "in"] (pathDirname ["", "w", "in"] ++ ["FASTQ_output"])
      "s_1.fastq" ∈
      (process_fastq_files (fun _ => true)
        ⟨[["", "w", "in", "s_1.fastq"]], [["", "w", "in"]]⟩ ["", "w", "in"]).invocations ∧
    (cutadaptCommand ["", "w", "in"] (pathDirname ["", "w", "in"] ++ ["FASTQ_output"])
      "s_1.fastq").getLastD "" =
      renderPath (["", "w", "in"] ++ [strDropRight "s_1.fastq" 8 ++ "_2.fastq"]) := by
  have h := claim_C9 (fun _ => true)
    ⟨[["", "w", "in", "s_1.fastq"]], [["", "w", "in"]]⟩ ["", "w", "in"] "s_1.fastq"
    (fun c => rfl) (by decide) (by decide) (by decide) (by decide)
  exact ⟨h.1, h.2.1, h.2.2⟩

/-- Claim C6: for an input directory `/data/reads` containing exactly
`sample_1.fastq` and `sample_2.fastq`, the trim stage produces outputs
named `trimmed.sample_1.fastq` and `trimmed.sample_2.fastq.gz` in the
sibling `FASTQ_output` directory — whose listing afterwards is exactly those
two files — and the stage's returned path equals that sibling directory. -/
theorem claim_C6 :
    (process_fastq_files (fun _ => true)
      ⟨[["", "data", "reads", "sample_1.fastq"], ["", "data", "reads", "sample_2.fastq"]],
       [["", "data", "reads"]]⟩ ["", "data", "reads"]).ret =
      .ok ["", "data", "FASTQ_output"] ∧
    ["", "data", "FASTQ_output", "trimmed.sample_1.fastq"] ∈
      (process_fastq_files (fun _ => true)
        ⟨[["", "data", "reads", "sample_1.fastq"], ["", "data", "reads", "sample_2.fastq"]],
         [["", "data", "reads"]]⟩ ["", "data", "reads"]).fs.files ∧
    ["", "data", "FASTQ_output", "trimmed.sample_2.fastq.gz"] ∈
      (process_fastq_files (fun _ => true)
        ⟨[["", "data", "reads", "sample_1.fastq"], ["", "data", "reads", "sample_2.fastq"]],
         [["", "data", "reads"]]⟩ ["", "data", "reads"]).fs.files ∧
    (process_fastq_files (fun _ => true)
      ⟨[["", "data", "reads", "sample_1.fastq"], ["", "data", "reads", "sample_2.fastq"]],
       [["", "data", "reads"]]⟩ ["", "data", "reads"]).fs.listdir
      ["", "data", "FASTQ_output"] =
      ["trimmed.sample_1.fastq", "trimmed.sample_2.fastq.gz"] :=
  ⟨rfl, by decide, by decide, by decide⟩

/-- Claim C7 (amended): a stage never writes into its input directory
*provided* the input directory's base name differs from the stage's output
label (and the input directory is not the filesystem root): every file the
stage writes lies in the sibling output directory, which is then distinct
from the input directory, and the input directory's listing is unchanged.
(When the input directory is itself named like the output label — e.g. a
trim stage run on a directory named `FASTQ_output` — the resolved output
directory *is* the input directory and the stage writes into it; see the
counterexample.) -/
theorem claim_C7 (runOk : List String → Bool) (fs : FS) (d gi g : FsPath) :
    (d ≠ [] → d.getLastD "" ≠ "FASTQ_output" →
      pathDirname d ++ ["FASTQ_output"] ≠ d ∧
      (process_fastq_files runOk fs d).fs.listdir d = fs.listdir d ∧
      ∀ q ∈ (process_fastq_files runOk fs d).fs.files,
        q ∈ fs.files ∨ q.dropLast = pathDirname d ++ ["FASTQ_output"]) ∧
    (d ≠ [] → d.getLastD "" ≠ "hisat2_output" →
      pathDirname d ++ ["hisat2_output"] ≠ d ∧
      (align_with_hisat2 runOk fs d gi).fs.listdir d = fs.listdir d ∧
      ∀ q ∈ (align_with_hisat2 runOk fs d gi).fs.files,
        q ∈ fs.files ∨ (∃ r : String,
          q = (pathDirname d ++ ["hisat2_output"]) ++ ["aligned." ++ r ++ ".sam"])) ∧
    (d ≠ [] → d.getLastD "" ≠ "mapped_transcripts" →
      pathDirname d ++ ["mapped_transcripts"] ≠ d ∧
      (trim_and_map_transcripts runOk fs d g).fs.listdir d = fs.listdir d ∧
      ∀ q ∈ (trim_and_map_transcripts runOk fs d g).fs.files,
        q ∈ fs.files ∨ q.dropLast = pathDirname d ++ ["mapped_transcripts"]) := by
  refine ⟨?_, ?_, ?_⟩
  · intro hne hlast
    refine ⟨snoc_ne_of_getLastD hlast, ?_, ?_⟩
    · exact process_listdir runOk fs d (snoc_ne_of_getLastD hlast) (dropLast_ne_self hne)
    · intro q hq
      exact process_files_mem runOk fs d hq
  · intro hne hlast
    refine ⟨snoc_ne_of_getLastD hlast, ?_, ?_⟩
    · exact align_listdir runOk fs d gi (snoc_ne_of_getLastD hlast) (dropLast_ne_self hne)
    · intro q hq
      exact align_files_mem runOk fs d gi hq
  · intro hne hlast
    refine ⟨snoc_ne_of_getLastD hlast, ?_, ?_⟩
    · exact tm_listdir runOk fs d g (snoc_ne_of_getLastD hlast) (dropLast_ne_self hne)
    · intro q hq
      exact tm_files_mem runOk fs d g hq

/-- Claim C7 counterexample: running the trim stage on an input directory
that is itself named `FASTQ_output` resolves the output directory to the
input directory itself; the stage writes `trimmed.s_1.fastq` into its input
directory and the input directory's listing changes — refuting "a stage
never writes into or mutates its input directory" as a universal statement. -/
theorem claim_C7_counterexample :
    (process_fastq_files (fun _ => true)
      ⟨[["", "w", "FASTQ_output", "s_1.fastq"]], [["", "w", "FASTQ_output"]]⟩
      ["", "w", "FASTQ_output"]).fs.listdir ["", "w", "FASTQ_output"] ≠
      (⟨[["", "w", "FASTQ_output", "s_1.fastq"]], [["", "w", "FASTQ_output"]]⟩ : FS).listdir
        ["", "w", "FASTQ_output"] ∧
    ["", "w", "FASTQ_output", "trimmed.s_1.fastq"] ∈
      (process_fastq_files (fun _ => true)
        ⟨[["", "w", "FASTQ_output", "s_1.fastq"]], [["", "w", "FASTQ_output"]]⟩
        ["", "w", "FASTQ_output"]).fs.files :=
  ⟨by decide, by decide⟩

theorem claim_C7_witness :
    (process_fastq_files (fun _ => true)
      ⟨[["", "w", "in", "s_1.fastq"]], [["", "w", "in"]]⟩ ["", "w", "in"]).fs.listdir
      ["", "w", "in"] =
      (⟨[["", "w", "in", "s_1.fastq"]], [["", "w", "in"]]⟩ : FS).listdir ["", "w", "in"] ∧
    (trim_and_map_transcripts (fun _ => true)
      ⟨[["", "w", "in", "s_1.fastq"]], [["", "w", "in"]]⟩ ["", "w", "in"]
      ["", "w", "g.gtf"]).fs.listdir ["", "w", "in"] =
      (⟨[["", "w", "in", "s_1.fastq"]], [["", "w", "in"]]⟩ : FS).listdir ["", "w", "in"] := by
  have h := claim_C7 (fun _ => true)
    ⟨[["", "w", "in", "s_1.fastq"]], [["", "w", "in"]]⟩ ["", "w", "in"]
    ["", "w", "idx"] ["", "w", "g.gtf"]
  exact ⟨(h.1 (by decide) (by decide)).2.1, (h.2.2 (by decide) (by decide)).2.1⟩

/-- Claim C2 (amended): the driver does not propagate every stage failure
unchanged.  A `CalledProcessError` (failed external command) passes through
`main`'s `except (FileNotFoundError, OSError)` clause untouched, but a
stage's `FileNotFoundError` or `OSError` is caught and re-raised as a *new*
`OSError` with message `"Error during execution: <original message>"` — the
original exception type and value are lost (only the message text is
embedded). -/
theorem claim_C2 (runOk : List String → Bool) (fs : FS) (g gi : FsPath) (e : PyErr) :
    ((process_fastq_files runOk fs fastq_files_dir).ret = .error e →
      (main runOk fs g gi).ret = .error (mainHandler e)) ∧
    (∀ a, mainHandler (PyErr.calledProcessError a) = PyErr.calledProcessError a) ∧
    (∀ m, mainHandler (PyErr.fileNotFoundError m) =
      PyErr.osError ("Error during execution: " ++ m)) ∧
    (∀ m, mainHandler (PyErr.osError m) =
      PyErr.osError ("Error during execution: " ++ m)) := by
  refine ⟨?_, fun a => rfl, fun m => rfl, fun m => rfl⟩
  intro h
  simp only [main]
  rw [stageStep_error _ _ _ h]

/-- Claim C2 counterexample: with no filesystem entries, the trim stage
raises `FileNotFoundError("The directory '/path/to/fastq/files' does not
exist.")`, but `main` delivers a different error value to its caller — an
`OSError` with a prefixed message — so the failure is *not* propagated
unchanged. -/
theorem claim_C2_counterexample :
    (process_fastq_files (fun _ => true) ⟨[], []⟩ fastq_files_dir).ret =
      .error (.fileNotFoundError
        "The directory \x27/path/to/fastq/files\x27 does not exist.") ∧
    (main (fun _ => true) ⟨[], []⟩ ["", "a.gtf"] ["", "idx"]).ret =
      .error (.osError
        "Error during execution: The directory \x27/path/to/fastq/files\x27 does not exist.") ∧
    PyErr.osError
        "Error during execution: The directory \x27/path/to/fastq/files\x27 does not exist." ≠
      PyErr.fileNotFoundError
        "The directory \x27/path/to/fastq/files\x27 does not exist." :=
  ⟨rfl, rfl, by decide⟩

theorem claim_C2_witness :
    (main (fun _ => true) ⟨[], []⟩ ["", "a.gtf"] ["", "idx"]).ret =
      .error (mainHandler (.fileNotFoundError
        "The directory \x27/path/to/fastq/files\x27 does not exist.")) := by
  have h := (claim_C2 (fun _ => true) ⟨[], []⟩ ["", "a.gtf"] ["", "idx"]
    (.fileNotFoundError
      "The directory \x27/path/to/fastq/files\x27 does not exist.")).1 rfl
  exact h

/-! ## Lemmas about the driver's conversion loop and the full success chain -/

theorem bamLoop_ok (runOk : List String → Bool) (fs : FS) (ad : FsPath)
    (hall : ∀ c, runOk c = true) : (bamLoop runOk fs ad).ok = true := by
  simp only [bamLoop]
  exact (stageLoop_all_ok _ _ _ _ _ _ (fun f _ _ => hall _)).1

theorem bamLoop_dirs (runOk : List String → Bool) (fs : FS) (ad : FsPath) :
    (bamLoop runOk fs ad).fs.dirs =
      (fs.makedirs (pathDirname ad ++ ["bam"])).dirs := by
  simp only [bamLoop, resolveOutputDir]
  rw [stageLoop_dirs]

theorem bamLoop_files_mono {q : FsPath} (runOk : List String → Bool) (fs : FS)
    (ad : FsPath) (h : q ∈ fs.files) : q ∈ (bamLoop runOk fs ad).fs.files := by
  simp only [bamLoop, resolveOutputDir]
  exact stageLoop_files_mono _ _ _ _ _ _ (by rw [makedirs_files]; exact h)

theorem bamLoop_files_mem {q : FsPath} (runOk : List String → Bool) (fs : FS)
    (ad : FsPath) (h : q ∈ (bamLoop runOk fs ad).fs.files) :
    q ∈ fs.files ∨ ∃ sam ∈ (fs.makedirs (pathDirname ad ++ ["bam"])).listdir ad,
      strEndsWith sam ".sam" = true ∧
      q = (pathDirname ad ++ ["bam"]) ++ [splitextRoot sam ++ ".bam"] := by
  simp only [bamLoop, resolveOutputDir] at h
  rcases mem_stageLoop_files _ _ _ _ _ _ h with h' | ⟨sam, hsl, hsp, hout⟩
  · rw [makedirs_files] at h'
    exact Or.inl h'
  · right
    simp only [samtoolsOutputs, List.mem_cons, List.not_mem_nil, or_false] at hout
    exact ⟨sam, hsl, hsp, hout⟩

theorem stage1_ret (runOk : List String → Bool) (fs : FS)
    (hall : ∀ c, runOk c = true) (hd : fs.isdir fastq_files_dir = true) :
    (process_fastq_files runOk fs fastq_files_dir).ret =
      .ok ["", "path", "to", "fastq", "FASTQ_output"] := by
  rw [process_spec runOk fs fastq_files_dir hall hd]
  rfl

theorem stage1_isdir (runOk : List String → Bool) (fs : FS)
    (hd : fs.isdir fastq_files_dir = true) :
    (process_fastq_files runOk fs fastq_files_dir).fs.isdir
      ["", "path", "to", "fastq", "FASTQ_output"] = true := by
  apply isdir_iff.mpr
  rw [process_dirs runOk fs fastq_files_dir hd]
  exact mem_makedirs_dirs.mpr (Or.inr rfl)

theorem stage1_isfile (runOk : List String → Bool) (fs : FS) {p : FsPath}
    (h : fs.isfile p = true) :
    (process_fastq_files runOk fs fastq_files_dir).fs.isfile p = true :=
  isfile_iff.mpr (process_files_mono runOk fs fastq_files_dir (isfile_iff.mp h))

theorem stage2_ret (runOk : List String → Bool) (fs : FS) (gi : FsPath)
    (hall : ∀ c, runOk c = true) (hd : fs.isdir fastq_files_dir = true)
    (hgi : fs.isfile gi = true) :
    (align_with_hisat2 runOk (process_fastq_files runOk fs fastq_files_dir).fs
      ["", "path", "to", "fastq", "FASTQ_output"] gi).ret =
      .ok ["", "path", "to", "fastq", "hisat2_output"] := by
  rw [align_spec runOk _ _ gi hall (stage1_isdir runOk fs hd)
    (stage1_isfile runOk fs hgi)]
  rfl

theorem stage2_isdir (runOk : List String → Bool) (fs : FS) (gi : FsPath)
    (hd : fs.isdir fastq_files_dir = true) :
    (align_with_hisat2 runOk (process_fastq_files runOk fs fastq_files_dir).fs
      ["", "path", "to", "fastq", "FASTQ_output"] gi).fs.isdir
      ["", "path", "to", "fastq", "hisat2_output"] = true := by
  apply isdir_iff.mpr
  rw [align_dirs runOk _ _ gi (stage1_isdir runOk fs hd)]
  exact mem_makedirs_dirs.mpr (Or.inr rfl)

theorem stage2_isfile (runOk : List String → Bool) (fs : FS) (gi : FsPath)
    {p : FsPath} (h : fs.isfile p = true) :
    (align_with_hisat2 runOk (process_fastq_files runOk fs fastq_files_dir).fs
      ["", "path", "to", "fastq", "FASTQ_output"] gi).fs.isfile p = true :=
  isfile_iff.mpr (align_files_mono runOk _ _ gi
    (process_files_mono runOk fs fastq_files_dir (isfile_iff.mp h)))

theorem stage3_isdir (runOk : List String → Bool) (fs : FS) (gi : FsPath)
    (hd : fs.isdir fastq_files_dir = true) :
    (bamLoop runOk
      (align_with_hisat2 runOk (process_fastq_files runOk fs fastq_files_dir).fs
        ["", "path", "to", "fastq", "FASTQ_output"] gi).fs
      ["", "path", "to", "fastq", "hisat2_output"]).fs.isdir
      (pathDirname ["", "path", "to", "fastq", "hisat2_output"] ++ ["bam"]) = true := by
  apply isdir_iff.mpr
  rw [bamLoop_dirs]
  exact mem_makedirs_dirs.mpr (Or.inr rfl)

theorem stage3_isfile (runOk : List String → Bool) (fs : FS) (gi : FsPath)
    {p : FsPath} (h : fs.isfile p = true) :
    (bamLoop runOk
      (align_with_hisat2 runOk (process_fastq_files runOk fs fastq_files_dir).fs
        ["", "path", "to", "fastq", "FASTQ_output"] gi).fs
      ["", "path", "to", "fastq", "hisat2_output"]).fs.isfile p = true :=
  isfile_iff.mpr (bamLoop_files_mono runOk _ _
    (align_files_mono runOk _ _ gi
      (process_files_mono runOk fs fastq_files_dir (isfile_iff.mp h))))

theorem stage4_ret (runOk : List String → Bool) (fs : FS) (g gi : FsPath)
    (hall : ∀ c, runOk c = true) (hd : fs.isdir fastq_files_dir = true)
    (hgtf : fs.isfile g = true) :
    (trim_and_map_transcripts runOk
      (bamLoop runOk
        (align_with_hisat2 runOk (process_fastq_files runOk fs fastq_files_dir).fs
          ["", "path", "to", "fastq", "FASTQ_output"] gi).fs
        ["", "path", "to", "fastq", "hisat2_output"]).fs
      (pathDirname ["", "path", "to", "fastq", "hisat2_output"] ++ ["bam"]) g).ret =
      .ok (pathDirname (pathDirname ["", "path", "to", "fastq", "hisat2_output"]
        ++ ["bam"]) ++ ["mapped_transcripts"]) :=
  tm_ret runOk _ _ g hall (stage3_isdir runOk fs gi hd) (stage3_isfile runOk fs gi hgtf)

/-- On a run where every external command succeeds and all preconditions
hold, `main` is the sequential composition of the four stages, threading
each stage's output directory into the next, and returns `None`. -/
theorem main_success_eq (runOk : List String → Bool) (fs : FS) (g gi : FsPath)
    (hall : ∀ c, runOk c = true) (hd : fs.isdir fastq_files_dir = true)
    (hgi : fs.isfile gi = true) (hgtf : fs.isfile g = true) :
    main runOk fs g gi =
      ⟨.ok none,
       (trim_and_map_transcripts runOk
         (bamLoop runOk
           (align_with_hisat2 runOk (process_fastq_files runOk fs fastq_files_dir).fs
             ["", "path", "to", "fastq", "FASTQ_output"] gi).fs
           ["", "path", "to", "fastq", "hisat2_output"]).fs
         (pathDirname ["", "path", "to", "fastq", "hisat2_output"] ++ ["bam"]) g).fs,
       ((([] ++ (process_fastq_files runOk fs fastq_files_dir).invocations) ++
          (align_with_hisat2 runOk (process_fastq_files runOk fs fastq_files_dir).fs
            ["", "path", "to", "fastq", "FASTQ_output"] gi).invocations) ++
          (bamLoop runOk
            (align_with_hisat2 runOk (process_fastq_files runOk fs fastq_files_dir).fs
              ["", "path", "to", "fastq", "FASTQ_output"] gi).fs
            ["", "path", "to", "fastq", "hisat2_output"]).invocations) ++
         (trim_and_map_transcripts runOk
           (bamLoop runOk
             (align_with_hisat2 runOk (process_fastq_files runOk fs fastq_files_dir).fs
               ["", "path", "to", "fastq", "FASTQ_output"] gi).fs
             ["", "path", "to", "fastq", "hisat2_output"]).fs
           (pathDirname ["", "path", "to", "fastq", "hisat2_output"] ++ ["bam"]) g).invocations⟩ := by
  simp only [main]
  rw [stageStep_ok _ _ _ (stage1_ret runOk fs hall hd)]
  try dsimp only
  rw [stageStep_ok _ _ _ (stage2_ret runOk fs gi hall hd hgi)]
  try dsimp only
  simp only [resolveOutputDir]
  rw [if_pos (bamLoop_ok runOk _ _ hall)]
  rw [stageStep_ok _ _ _ (stage4_ret runOk fs g gi hall hd hgtf)]

/-- Claim C3 (amended): on a successful run (all external commands succeed,
the hardcoded FASTQ directory exists, the genome index and GTF file exist,
and none of the four derived output directories pre-exist), `main` executes
the four stages in fixed order — trim, align, convert-to-BAM,
assemble-transcripts — threading each stage's output directory into the
next, creating exactly the four sibling directories `FASTQ_output`,
`hisat2_output`, `bam`, `mapped_transcripts` in that order; but `main` has
no `return` statement, so it returns `None` — the final stage's output
directory path is computed and then discarded, not returned to the caller. -/
theorem claim_C3 (runOk : List String → Bool) (fs : FS) (g gi : FsPath)
    (hall : ∀ c, runOk c = true) (hd : fs.isdir fastq_files_dir = true)
    (hgi : fs.isfile gi = true) (hgtf : fs.isfile g = true)
    (hF : ["", "path", "to", "fastq", "FASTQ_output"] ∉ fs.dirs)
    (hH : ["", "path", "to", "fastq", "hisat2_output"] ∉ fs.dirs)
    (hB : ["", "path", "to", "fastq", "bam"] ∉ fs.dirs)
    (hM : ["", "path", "to", "fastq", "mapped_transcripts"] ∉ fs.dirs) :
    (main runOk fs g gi).ret = .ok none ∧
    (main runOk fs g gi).fs.dirs = fs.dirs ++
      [["", "path", "to", "fastq", "FASTQ_output"],
       ["", "path", "to", "fastq", "hisat2_output"],
       ["", "path", "to", "fastq", "bam"],
       ["", "path", "to", "fastq", "mapped_transcripts"]] := by
  rw [main_success_eq runOk fs g gi hall hd hgi hgtf]
  refine ⟨rfl, ?_⟩
  dsimp only
  have e1 : (process_fastq_files runOk fs fastq_files_dir).fs.dirs =
      fs.dirs ++ [["", "path", "to", "fastq", "FASTQ_output"]] := by
    rw [process_dirs runOk fs fastq_files_dir hd]
    unfold FS.makedirs
    rw [if_neg ?hF1]
    case hF1 => exact hF
    rfl
  have e2 : (align_with_hisat2 runOk (process_fastq_files runOk fs fastq_files_dir).fs
      ["", "path", "to", "fastq", "FASTQ_output"] gi).fs.dirs =
      (fs.dirs ++ [["", "path", "to", "fastq", "FASTQ_output"]]) ++
        [["", "path", "to", "fastq", "hisat2_output"]] := by
    rw [align_dirs runOk _ _ gi (stage1_isdir runOk fs hd)]
    unfold FS.makedirs
    rw [if_neg ?hH2]
    case hH2 =>
      rw [e1]
      intro hmem
      rcases List.mem_append.mp hmem with hm | hm
      · exact hH hm
      · exact absurd (List.mem_singleton.mp hm) (by decide)
    rw [e1]
    rfl
  have e3 : (bamLoop runOk
      (align_with_hisat2 runOk (process_fastq_files runOk fs fastq_files_dir).fs
        ["", "path", "to", "fastq", "FASTQ_output"] gi).fs
      ["", "path", "to", "fastq", "hisat2_output"]).fs.dirs =
      ((fs.dirs ++ [["", "path", "to", "fastq", "FASTQ_output"]]) ++
        [["", "path", "to", "fastq", "hisat2_output"]]) ++
        [["", "path", "to", "fastq", "bam"]] := by
    rw [bamLoop_dirs]
    unfold FS.makedirs
    rw [if_neg ?hB2]
    case hB2 =>
      rw [e2]
      intro hmem
      rcases List.mem_append.mp hmem with hm | hm
      · rcases List.mem_append.mp hm with hm' | hm'
        · exact hB hm'
        · exact absurd (List.mem_singleton.mp hm') (by decide)
      · exact absurd (List.mem_singleton.mp hm) (by decide)
    rw [e2]
    rfl
  rw [tm_dirs runOk _ _ g (stage3_isdir runOk fs gi hd) (stage3_isfile runOk fs gi hgtf)]
  unfold FS.makedirs
  rw [if_neg ?hM2]
  case hM2 =>
    rw [e3]
    intro hmem
    rcases List.mem_append.mp hmem with hm | hm
    · rcases List.mem_append.mp hm with hm' | hm'
      · rcases List.mem_append.mp hm' with hm'' | hm''
        · exact hM hm''
        · exact absurd (List.mem_singleton.mp hm'') (by decide)
      · exact absurd (List.mem_singleton.mp hm') (by decide)
    · exact absurd (List.mem_singleton.mp hm) (by decide)
  show (bamLoop runOk
      (align_with_hisat2 runOk (process_fastq_files runOk fs fastq_files_dir).fs
        ["", "path", "to", "fastq", "FASTQ_output"] gi).fs
      ["", "path", "to", "fastq", "hisat2_output"]).fs.dirs ++
      [["", "path", "to", "fastq", "mapped_transcripts"]] = _
  rw [e3]
  simp [List.append_assoc]

/-- Claim C3 counterexample: a fully successful concrete run of `main`
returns `None` (`.ok none`), not the final stage's output directory
`/path/to/fastq/mapped_transcripts` — the source's `main` has no `return`
statement, so the value `trim_and_map_transcripts` returns is discarded. -/
theorem claim_C3_counterexample :
    (main (fun _ => true)
      ⟨[["", "path", "to", "fastq", "files", "s_1.fastq"],
        ["", "path", "to", "fastq", "files", "s_2.fastq"],
        ["", "ann.gtf"], ["", "idx"]],
       [["", "path", "to", "fastq", "files"]]⟩ ["", "ann.gtf"] ["", "idx"]).ret =
      .ok none ∧
    (Except.ok (none : Option FsPath) : Except PyErr (Option FsPath)) ≠
      .ok (some ["", "path", "to", "fastq", "mapped_transcripts"]) :=
  ⟨rfl, by simp⟩

theorem claim_C3_witness :
    (main (fun _ => true)
      ⟨[["", "path", "to", "fastq", "files", "s_1.fastq"],
        ["", "path", "to", "fastq", "files", "s_2.fastq"],
        ["", "ann.gtf"], ["", "idx"]],
       [["", "path", "to", "fastq", "files"]]⟩ ["", "ann.gtf"] ["", "idx"]).ret =
      .ok none ∧
    (main (fun _ => true)
      ⟨[["", "path", "to", "fastq", "files", "s_1.fastq"],
        ["", "path", "to", "fastq", "files", "s_2.fastq"],
        ["", "ann.gtf"], ["", "idx"]],
       [["", "path", "to", "fastq", "files"]]⟩ ["", "ann.gtf"] ["", "idx"]).fs.dirs =
      [["", "path", "to", "fastq", "files"]] ++
      [["", "path", "to", "fastq", "FASTQ_output"],
       ["", "path", "to", "fastq", "hisat2_output"],
       ["", "path", "to", "fastq", "bam"],
       ["", "path", "to", "fastq", "mapped_transcripts"]] := by
  have h := claim_C3 (fun _ => true)
    ⟨[["", "path", "to", "fastq", "files", "s_1.fastq"],
      ["", "path", "to", "fastq", "files", "s_2.fastq"],
      ["", "ann.gtf"], ["", "idx"]],
     [["", "path", "to", "fastq", "files"]]⟩ ["", "ann.gtf"] ["", "idx"]
    (fun c => rfl) (by decide) (by decide) (by decide)
    (by decide) (by decide) (by decide) (by decide)
  exact ⟨h.1, h.2⟩

theorem process_dirs_mem {q : FsPath} (runOk : List String → Bool) (fs : FS)
    (d : FsPath) (h : q ∈ (process_fastq_files runOk fs d).fs.dirs) :
    q ∈ fs.dirs ∨ q = pathDirname d ++ ["FASTQ_output"] := by
  by_cases hd : fs.isdir d = true
  · rw [process_dirs runOk fs d hd] at h
    exact mem_makedirs_dirs.mp h
  · simp only [process_fastq_files, resolveOutputDir] at h
    rw [if_neg hd] at h
    exact Or.inl h

theorem align_dirs_mem {q : FsPath} (runOk : List String → Bool) (fs : FS)
    (d gi : FsPath) (h : q ∈ (align_with_hisat2 runOk fs d gi).fs.dirs) :
    q ∈ fs.dirs ∨ q = pathDirname d ++ ["hisat2_output"] := by
  by_cases hd : fs.isdir d = true
  · rw [align_dirs runOk fs d gi hd] at h
    exact mem_makedirs_dirs.mp h
  · simp only [align_with_hisat2, resolveOutputDir] at h
    rw [if_neg hd] at h
    exact Or.inl h

/-- In a pipeline run driven by `main` on a filesystem with no pre-existing
entries inside the derived `hisat2_output` and `bam` directories, every name
listed in the `bam` directory after the conversion loop comes from a
`samtools` conversion of an `aligned.*.sam` file, hence starts with
`aligned.` and is rejected by the step-4 `sorted.*.bam` predicate. -/
theorem bamDir_no_sorted (runOk : List String → Bool) (fs : FS) (gi : FsPath)
    (hcfiles : ∀ p ∈ fs.files,
      p.dropLast ≠ ["", "path", "to", "fastq", "hisat2_output"] ∧
      p.dropLast ≠ ["", "path", "to", "fastq", "bam"])
    (hcdirs : ∀ p ∈ fs.dirs,
      p.dropLast ≠ ["", "path", "to", "fastq", "hisat2_output"] ∧
      p.dropLast ≠ ["", "path", "to", "fastq", "bam"]) :
    ∀ x ∈ (bamLoop runOk
        (align_with_hisat2 runOk (process_fastq_files runOk fs fastq_files_dir).fs
          ["", "path", "to", "fastq", "FASTQ_output"] gi).fs
        ["", "path", "to", "fastq", "hisat2_output"]).fs.listdir
        (pathDirname ["", "path", "to", "fastq", "hisat2_output"] ++ ["bam"]),
      (strStartsWith x "sorted." && strEndsWith x ".bam") = false := by
  intro x hx
  obtain ⟨p, hp, hpne, hpd, hplast⟩ := mem_listdir.mp hx
  rcases hp with hpf | hpdirs
  · rcases bamLoop_files_mem runOk _ _ hpf with hpf1 | ⟨sam, hsaml, hsamsuf, hpeq⟩
    · rcases align_files_mem runOk _ _ gi hpf1 with hpf2 | ⟨r, hpeq⟩
      · rcases process_files_mem runOk fs fastq_files_dir hpf2 with h0 | hFd
        · exact absurd
            (show p.dropLast = ["", "path", "to", "fastq", "bam"] from hpd)
            (hcfiles p h0).2
        · exact absurd (hFd.symm.trans hpd) (by decide)
      · subst hpeq
        rw [dropLast_snoc] at hpd
        exact absurd hpd (by decide)
    · subst hpeq
      rw [getLastD_snoc] at hplast
      obtain ⟨p', hp', hp'ne, hp'd, hp'last⟩ := mem_listdir.mp hsaml
      rcases hp' with hp'f | hp'dirs
      · rw [makedirs_files] at hp'f
        rcases align_files_mem runOk _ _ gi hp'f with hp'f2 | ⟨r, hp'eq⟩
        · rcases process_files_mem runOk fs fastq_files_dir hp'f2 with h0 | hFd
          · exact absurd
              (show p'.dropLast = ["", "path", "to", "fastq", "hisat2_output"] from hp'd)
              (hcfiles p' h0).1
          · exact absurd (hFd.symm.trans hp'd) (by decide)
        · subst hp'eq
          rw [getLastD_snoc] at hp'last
          subst hp'last
          subst hplast
          rw [splitextRoot_sandwich]
          apply phase4_pred_false
          refine ⟨r.data ++ ".bam".data, ?_⟩
          simp [List.append_assoc]
      · rcases mem_makedirs_dirs.mp hp'dirs with hp'dirs2 | hp'eq
        · rcases align_dirs_mem runOk _ _ gi hp'dirs2 with hp'dirs3 | hp'eq
          · rcases process_dirs_mem runOk fs fastq_files_dir hp'dirs3 with h0 | hp'eq
            · exact absurd
                (show p'.dropLast = ["", "path", "to", "fastq", "hisat2_output"] from hp'd)
                (hcdirs p' h0).1
            · subst hp'eq
              rw [dropLast_snoc] at hp'd
              exact absurd hp'd (by decide)
          · subst hp'eq
            rw [dropLast_snoc] at hp'd
            exact absurd hp'd (by decide)
        · subst hp'eq
          rw [dropLast_snoc] at hp'd
          exact absurd hp'd (by decide)
  · rw [bamLoop_dirs] at hpdirs
    rcases mem_makedirs_dirs.mp hpdirs with hp2 | hpeq
    · rcases align_dirs_mem runOk _ _ gi hp2 with hp3 | hpeq
      · rcases process_dirs_mem runOk fs fastq_files_dir hp3 with h0 | hpeq
        · exact absurd
            (show p.dropLast = ["", "path", "to", "fastq", "bam"] from hpd)
            (hcdirs p h0).2
        · subst hpeq
          rw [dropLast_snoc] at hpd
          exact absurd hpd (by decide)
      · subst hpeq
        rw [dropLast_snoc] at hpd
        exact absurd hpd (by decide)
    · subst hpeq
      rw [dropLast_snoc] at hpd
      exact absurd hpd (by decide)

/-- Claim C8: the fourth phase of the transcript stage selects only files
named `sorted.*.bam`, while the driver's SAM-to-BAM conversion names every
BAM file `aligned.` followed by the trimmed-file base name; hence on a
pipeline run driven by `main` (all commands succeeding, preconditions
holding, and no pre-existing entries inside the derived `hisat2_output` and
`bam` directories) the fourth phase performs zero external-tool
invocations: the run's last external invocation is the `stringtie --merge`
call, and the final `bam` directory listing contains no name passing the
`sorted.*.bam` filter. -/
theorem claim_C8 (runOk : List String → Bool) (fs : FS) (g gi : FsPath)
    (hall : ∀ c, runOk c = true) (hd : fs.isdir fastq_files_dir = true)
    (hgi : fs.isfile gi = true) (hgtf : fs.isfile g = true)
    (hcfiles : ∀ p ∈ fs.files,
      p.dropLast ≠ ["", "path", "to", "fastq", "hisat2_output"] ∧
      p.dropLast ≠ ["", "path", "to", "fastq", "bam"])
    (hcdirs : ∀ p ∈ fs.dirs,
      p.dropLast ≠ ["", "path", "to", "fastq", "hisat2_output"] ∧
      p.dropLast ≠ ["", "path", "to", "fastq", "bam"]) :
    (main runOk fs g gi).ret = .ok none ∧
    (main runOk fs g gi).invocations.getLastD [] =
      mergeCommand ["", "path", "to", "fastq", "mapped_transcripts"] ∧
    ((main runOk fs g gi).fs.listdir ["", "path", "to", "fastq", "bam"]).filter
      (fun f => strStartsWith f "sorted." && strEndsWith f ".bam") = [] := by
  have hP4 := bamDir_no_sorted runOk fs gi hcfiles hcdirs
  have hts := tm_success runOk _ _ g hall (stage3_isdir runOk fs gi hd)
    (stage3_isfile runOk fs gi hgtf) (by decide) (by decide) hP4
  rw [main_success_eq runOk fs g gi hall hd hgi hgtf]
  refine ⟨rfl, ?_, ?_⟩
  · dsimp only
    rw [hts.2]
    rw [show (awkCommand g ::
        (tmStep2Loop runOk
          (bamLoop runOk
            (align_with_hisat2 runOk (process_fastq_files runOk fs fastq_files_dir).fs
              ["", "path", "to", "fastq", "FASTQ_output"] gi).fs
            ["", "path", "to", "fastq", "hisat2_output"]).fs
          (pathDirname ["", "path", "to", "fastq", "hisat2_output"] ++ ["bam"])).invocations ++
        [mergeCommand (pathDirname (pathDirname ["", "path", "to", "fastq", "hisat2_output"]
          ++ ["bam"]) ++ ["mapped_transcripts"])]) =
      ((awkCommand g ::
        (tmStep2Loop runOk
          (bamLoop runOk
            (align_with_hisat2 runOk (process_fastq_files runOk fs fastq_files_dir).fs
              ["", "path", "to", "fastq", "FASTQ_output"] gi).fs
            ["", "path", "to", "fastq", "hisat2_output"]).fs
          (pathDirname ["", "path", "to", "fastq", "hisat2_output"] ++ ["bam"])).invocations) ++
        [mergeCommand (pathDirname (pathDirname ["", "path", "to", "fastq", "hisat2_output"]
          ++ ["bam"]) ++ ["mapped_transcripts"])]) from rfl]
    rw [← List.append_assoc, getLastD_snoc]
    rfl
  · dsimp only
    have hfs := tm_listdir runOk
      (bamLoop runOk
        (align_with_hisat2 runOk (process_fastq_files runOk fs fastq_files_dir).fs
          ["", "path", "to", "fastq", "FASTQ_output"] gi).fs
        ["", "path", "to", "fastq", "hisat2_output"]).fs
      (pathDirname ["", "path", "to", "fastq", "hisat2_output"] ++ ["bam"]) g
      (e := ["", "path", "to", "fastq", "bam"]) (by decide) (by decide)
    rw [hfs]
    apply List.filter_eq_nil_iff.mpr
    intro a ha
    rw [hP4 a ha]
    exact Bool.false_ne_true

theorem claim_C8_witness :
    (main (fun _ => true)
      ⟨[["", "path", "to", "fastq", "files", "s_1.fastq"],
        ["", "path", "to", "fastq", "files", "s_2.fastq"],
        ["", "ann.gtf"], ["", "idx"]],
       [["", "path", "to", "fastq", "files"]]⟩ ["", "ann.gtf"] ["", "idx"]).ret =
      .ok none ∧
    (main (fun _ => true)
      ⟨[["", "path", "to", "fastq", "files", "s_1.fastq"],
        ["", "path", "to", "fastq", "files", "s_2.fastq"],
        ["", "ann.gtf"], ["", "idx"]],
       [["", "path", "to", "fastq", "files"]]⟩ ["", "ann.gtf"] ["", "idx"]).invocations.getLastD [] =
      mergeCommand ["", "path", "to", "fastq", "mapped_transcripts"] ∧
    ((main (fun _ => true)
      ⟨[["", "path", "to", "fastq", "files", "s_1.fastq"],
        ["", "path", "to", "fastq", "files", "s_2.fastq"],
        ["", "ann.gtf"], ["", "idx"]],
       [["", "path", "to", "fastq", "files"]]⟩ ["", "ann.gtf"] ["", "idx"]).fs.listdir
      ["", "path", "to", "fastq", "bam"]).filter
      (fun f => strStartsWith f "sorted." && strEndsWith f ".bam") = [] := by
  have h := claim_C8 (fun _ => true)
    ⟨[["", "path", "to", "fastq", "files", "s_1.fastq"],
      ["", "path", "to", "fastq", "files", "s_2.fastq"],
      ["", "ann.gtf"], ["", "idx"]],
     [["", "path", "to", "fastq", "files"]]⟩ ["", "ann.gtf"] ["", "idx"]
    (fun c => rfl) (by decide) (by decide) (by decide) (by decide) (by decide)
  exact ⟨h.1, h.2.1, h.2.2⟩

end RnaSeq
